import Mathlib

/-!
# l4lb: the XDP layer-4 load balancer `lb_main` (src/l4lb/c/lb.c)

Shallow embedding of `lb_main` and of `xdpcap_exit` (src/l4lb/c/xdpcap.h).

* Packet memory is a list of bytes (`Nat`, each below 256 in a well-formed frame);
  every store truncates with an explicit `% 256`.
* `uint16_t`, `uint32_t` and `uint64_t` values are `Nat` with explicit `% 2 ^ w`.
* The byte order of the BPF target (bpfel / bpfeb) is the parameter `le`.
* The three BPF maps are lookups that may yield nothing, as the code's NULL checks allow.
* The kernel helpers `bpf_xdp_adjust_head`, `bpf_xdp_adjust_tail` and `bpf_tail_call`
  are not part of the repository; they are modelled by their documented contracts.
-/

namespace L4lb

/-! ## Constants of the kernel and libc headers -/

/-- Action `XDP_ABORTED` of `enum xdp_action`. -/
def XDP_ABORTED : Nat := 0
/-- Action `XDP_DROP` of `enum xdp_action`. -/
def XDP_DROP : Nat := 1
/-- Action `XDP_PASS` of `enum xdp_action`. -/
def XDP_PASS : Nat := 2
/-- Action `XDP_TX` of `enum xdp_action`. -/
def XDP_TX : Nat := 3

/-- Constant `ETH_ALEN`: octets in one Ethernet address. -/
def ETH_ALEN : Nat := 6
/-- Constant `ETH_HLEN`: total octets in an Ethernet header. -/
def ETH_HLEN : Nat := 14
/-- Constant `ETH_ZLEN`: minimum octets in a frame without FCS. -/
def ETH_ZLEN : Nat := 60
/-- Constant `ETH_P_IP`: EtherType of IPv4. -/
def ETH_P_IP : Nat := 0x0800
/-- Constant `IP_DF`: the don't-fragment flag. -/
def IP_DF : Nat := 0x4000
/-- Constant `IPPROTO_IPIP`. -/
def IPPROTO_IPIP : Nat := 4
/-- Constant `IPPROTO_TCP`. -/
def IPPROTO_TCP : Nat := 6
/-- Constant `IPPROTO_UDP`. -/
def IPPROTO_UDP : Nat := 17
/-- Size `sizeof(struct ethhdr)`. -/
def sizeof_ethhdr : Nat := 14
/-- Size `sizeof(struct iphdr)`. -/
def sizeof_iphdr : Nat := 20
/-- Size `sizeof(struct tcphdr)`. -/
def sizeof_tcphdr : Nat := 20

/-! ## Data model (lb.c lines 25-78) -/

/-- Record `struct stat_counters`: nine `uint64_t` fields, in declaration order. -/
structure stat_counters where
  rx_packet_total : Nat
  rx_total_size : Nat
  too_short_packet_total : Nat
  non_ipv4_packet_total : Nat
  ip_option_packet_total : Nat
  non_supported_proto_packet_total : Nat
  no_vip_match_total : Nat
  failed_adjust_head_total : Nat
  failed_adjust_tail_total : Nat
  deriving DecidableEq, Repr

/-- Record `struct lb_config`: two `uint32_t` fields. -/
structure lb_config where
  vip_address : Nat
  num_dests : Nat
  deriving DecidableEq, Repr

/-- Record `struct destination_entry`: a `uint32_t` address (as held in memory, read natively)
and `ETH_ALEN` bytes of link address. -/
structure destination_entry where
  ip_address : Nat
  mac_address : List Nat
  deriving DecidableEq, Repr

/-- Constant `DESTINATIONS_SIZE`. -/
def DESTINATIONS_SIZE : Nat := 255

/-- The maps the program reads: every lookup may come back empty (NULL).
`xdpcap_hook k` tells whether a chained program is installed in slot `k`. -/
structure Maps where
  stat_counters_map : Option stat_counters
  lb_config_map : Option lb_config
  destinations_map : Nat → Option destination_entry
  xdpcap_hook : Nat → Bool

/-- Context `struct xdp_md` together with the packet buffer it points into: `frame` holds the bytes
from `data` up to `data_end`, `headroom` the bytes in front of `data` that the driver lets
the program claim, and `tail_adjustable` whether the driver lets the tail move. -/
structure xdp_md where
  headroom : List Nat
  frame : List Nat
  tail_adjustable : Bool
  deriving DecidableEq, Repr

/-! ## Memory access -/

/-- Read one byte at offset `off`. -/
def load8 (m : List Nat) (off : Nat) : Nat := m.getD off 0

/-- Write one byte at offset `off` (truncated to 8 bits). -/
def store8 (m : List Nat) (off v : Nat) : List Nat := m.set off (v % 256)

/-- Native read of a `uint16_t` at offset `off`. -/
def load16 (le : Bool) (m : List Nat) (off : Nat) : Nat :=
  if le then load8 m off + 256 * load8 m (off + 1)
  else 256 * load8 m off + load8 m (off + 1)

/-- Native read of a `uint32_t` at offset `off`. -/
def load32 (le : Bool) (m : List Nat) (off : Nat) : Nat :=
  if le then
    load8 m off + 256 * load8 m (off + 1) + 65536 * load8 m (off + 2)
      + 16777216 * load8 m (off + 3)
  else
    16777216 * load8 m off + 65536 * load8 m (off + 1) + 256 * load8 m (off + 2)
      + load8 m (off + 3)

/-- Native write of a `uint16_t` at offset `off`. -/
def store16 (le : Bool) (m : List Nat) (off v : Nat) : List Nat :=
  if le then store8 (store8 m off v) (off + 1) (v / 256)
  else store8 (store8 m off (v / 256)) (off + 1) v

/-- Native write of a `uint32_t` at offset `off`. -/
def store32 (le : Bool) (m : List Nat) (off v : Nat) : List Nat :=
  if le then
    store8 (store8 (store8 (store8 m off v) (off + 1) (v / 256)) (off + 2) (v / 65536))
      (off + 3) (v / 16777216)
  else
    store8 (store8 (store8 (store8 m off (v / 16777216)) (off + 1) (v / 65536))
      (off + 2) (v / 256)) (off + 3) v

/-- Swap the two bytes of a `uint16_t`. -/
def bswap16 (v : Nat) : Nat := (v % 256) * 256 + (v / 256) % 256

/-- Function `htons`: its argument is converted to `uint16_t`, then put in network order. -/
def htons (le : Bool) (v : Nat) : Nat := if le then bswap16 v else v % 65536

/-- Function `ntohs`: the same byte shuffle as `htons`. -/
def ntohs (le : Bool) (v : Nat) : Nat := if le then bswap16 v else v % 65536

/-- Call `memcpy(dst + off, src, n)` for a destination inside the packet. -/
def memcpy (m : List Nat) (off : Nat) (src : List Nat) : Nat → List Nat
  | 0 => m
  | n + 1 => store8 (memcpy m off src n) (off + n) (src.getD n 0)

/-- The 4-bit field `version` of `struct iphdr` at offset `off`: high nibble of byte 0. -/
def iphdr_version (m : List Nat) (off : Nat) : Nat := load8 m off / 16

/-- The 4-bit field `ihl` of `struct iphdr` at offset `off`: low nibble of byte 0. -/
def iphdr_ihl (m : List Nat) (off : Nat) : Nat := load8 m off % 16

/-- Assignment to the bit-field `version`: the low nibble of the byte is kept. -/
def set_iphdr_version (m : List Nat) (off v : Nat) : List Nat :=
  store8 m off ((v % 16) * 16 + load8 m off % 16)

/-- Assignment to the bit-field `ihl`: the high nibble of the byte is kept. -/
def set_iphdr_ihl (m : List Nat) (off v : Nat) : List Nat :=
  store8 m off ((load8 m off / 16) * 16 + v % 16)

/-- Increment `++c` on a `uint64_t`. -/
def incr64 (c : Nat) : Nat := (c + 1) % 2 ^ 64

/-- Addition `c += n` on a `uint64_t`. -/
def add64 (c n : Nat) : Nat := (c + n) % 2 ^ 64

/-! ## Kernel helpers -/

/-- Kernel helper `bpf_xdp_adjust_head(ctx, -n)`: moves `data` back by `n` bytes when the
headroom has them (result `some`), and fails without any change otherwise (`none`,
a nonzero return value). The bytes gained are whatever the headroom held. -/
def bpf_xdp_adjust_head_neg (ctx : xdp_md) (n : Nat) : Option xdp_md :=
  if n ≤ ctx.headroom.length then
    some { ctx with
      headroom := ctx.headroom.take (ctx.headroom.length - n)
      frame := ctx.headroom.drop (ctx.headroom.length - n) ++ ctx.frame }
  else none

/-- Kernel helper `bpf_xdp_adjust_tail(ctx, -n)`: moves `data_end` back by `n` bytes; it
fails (`none`) when the driver does not allow it or when fewer than `ETH_HLEN` bytes
would remain. -/
def bpf_xdp_adjust_tail_neg (ctx : xdp_md) (n : Nat) : Option xdp_md :=
  if ctx.tail_adjustable && decide (ETH_HLEN + n ≤ ctx.frame.length) then
    some { ctx with frame := ctx.frame.take (ctx.frame.length - n) }
  else none

/-! ## xdpcap.h -/

/-- Function `xdpcap_exit`: tail-calls the hook slot of `action`. With a program installed the call
does not come back (no value is returned to the caller: `none`); otherwise the helper
returns, its result is ignored and `action` is returned. -/
def xdpcap_exit (hook_map : Nat → Bool) (action : Nat) : Option Nat :=
  if hook_map action then none else some action

/-- What one run of `lb_main` leaves behind: the returned action (`none` when a chained
program took over), the statistics record and the packet context. -/
structure Result where
  ret : Option Nat
  stats : Option stat_counters
  ctx : xdp_md

/-- The macro `EXIT(action)`: `return xdpcap_exit(ctx, &xdpcap_hook, (action))`. -/
def EXIT (maps : Maps) (action : Nat) (c : Option stat_counters) (ctx : xdp_md) : Result :=
  { ret := xdpcap_exit maps.xdpcap_hook action, stats := c, ctx := ctx }

/-! ## lb.c: `lb_main` -/

/-- The checksum loop of lines 209-212: `sum` after `n` iterations over the 16-bit words
that start at offset `base`. -/
def sum_words (le : Bool) (m : List Nat) (base : Nat) : Nat → Nat
  | 0 => 0
  | n + 1 => (sum_words le m base n + load16 le m (base + 2 * n)) % 2 ^ 32

/-- Lines 184-214 of `lb_main`: the new Ethernet header, the IPIP header and its
checksum, written into the frame after the head was moved. The result carries the frame
and `iphdr_tot_len`. -/
def encap (le : Bool) (src_entry dest : destination_entry) (f0 : List Nat) :
    List Nat × Nat :=
  -- eth = ctx->data; eth->h_proto = htons(ETH_P_IP);
  let f1 := store16 le f0 12 (htons le ETH_P_IP)
  -- memcpy(eth->h_source, src_entry->mac_address, 6)
  let f2 := memcpy f1 6 src_entry.mac_address ETH_ALEN
  -- memcpy(eth->h_dest, dest->mac_address, 6)
  let f3 := memcpy f2 0 dest.mac_address ETH_ALEN
  -- ip2 = eth + 1 (offset 14); ip = ip2 + 1 (offset 34)
  let iphdr_tot_len := ntohs le (load16 le f3 (34 + 2))
  let f4 := set_iphdr_version f3 14 4
  let f5 := set_iphdr_ihl f4 14 5
  let f6 := store8 f5 15 0
  let f7 := store16 le f6 16 (htons le (iphdr_tot_len + sizeof_iphdr))
  -- ip2->id = ~ip->id
  let f8 := store16 le f7 18 ((2 ^ 32 - 1 - load16 le f7 (34 + 4)) % 65536)
  let f9 := store16 le f8 20 (htons le IP_DF)
  let f10 := store8 f9 22 64
  let f11 := store8 f10 23 IPPROTO_IPIP
  let f12 := store16 le f11 24 0
  let f13 := store32 le f12 26 src_entry.ip_address
  let f14 := store32 le f13 30 dest.ip_address
  let sum := sum_words le f14 14 (sizeof_iphdr / 2)
  let sum := (sum % 65536 + sum / 65536) % 2 ^ 32
  -- ip2->check = ~sum
  let f15 := store16 le f14 24 ((2 ^ 32 - 1 - sum) % 65536)
  (f15, iphdr_tot_len)

/-- Line 153: `uint32_t key = ip->saddr + tcp->source`, both fields read natively. -/
def key (le : Bool) (frame : List Nat) : Nat :=
  (load32 le frame (14 + 12) + load16 le frame (34 + 0)) % 2 ^ 32

/-- Line 156: `uint32_t dest_idx = (key % config->num_dests) + 1`. -/
def dest_idx (le : Bool) (config : lb_config) (frame : List Nat) : Nat :=
  (key le frame % config.num_dests + 1) % 2 ^ 32

/-- The program `lb_main` (lb.c lines 89-229). -/
def lb_main (le : Bool) (maps : Maps) (ctx : xdp_md) : Result :=
  match maps.stat_counters_map with
  | none => EXIT maps XDP_PASS none ctx
  | some c =>
  match maps.lb_config_map with
  | none => EXIT maps XDP_PASS (some c) ctx
  | some config =>
  match maps.destinations_map 0 with
  | none => EXIT maps XDP_PASS (some c) ctx
  | some src_entry =>
  -- data + sizeof(ethhdr) + sizeof(iphdr) + sizeof(tcphdr) > data_end
  if sizeof_ethhdr + sizeof_iphdr + sizeof_tcphdr > ctx.frame.length then
    EXIT maps XDP_PASS
      (some { c with too_short_packet_total := incr64 c.too_short_packet_total }) ctx
  else if iphdr_version ctx.frame 14 ≠ 4 then
    EXIT maps XDP_PASS
      (some { c with non_ipv4_packet_total := incr64 c.non_ipv4_packet_total }) ctx
  else if iphdr_ihl ctx.frame 14 ≠ 5 then
    EXIT maps XDP_PASS
      (some { c with ip_option_packet_total := incr64 c.ip_option_packet_total }) ctx
  else if load32 le ctx.frame (14 + 16) ≠ config.vip_address then
    EXIT maps XDP_PASS
      (some { c with no_vip_match_total := incr64 c.no_vip_match_total }) ctx
  else if load8 ctx.frame (14 + 9) ≠ IPPROTO_TCP then
    EXIT maps XDP_PASS
      (some { c with non_supported_proto_packet_total :=
                incr64 c.non_supported_proto_packet_total }) ctx
  else
    let c1 := { c with rx_packet_total := incr64 c.rx_packet_total }
    let c2 := { c1 with rx_total_size := add64 c1.rx_total_size ctx.frame.length }
    match maps.destinations_map (dest_idx le config ctx.frame) with
    | none => EXIT maps XDP_DROP (some c2) ctx
    | some dest =>
    match bpf_xdp_adjust_head_neg ctx sizeof_iphdr with
    | none =>
      EXIT maps XDP_DROP
        (some { c2 with failed_adjust_head_total := incr64 c2.failed_adjust_head_total }) ctx
    | some ctx1 =>
    -- ctx->data + sizeof(ethhdr) + sizeof(iphdr) + sizeof(iphdr) > ctx->data_end
    if sizeof_ethhdr + sizeof_iphdr + sizeof_iphdr > ctx1.frame.length then
      EXIT maps XDP_DROP (some c2) ctx1
    else
      let r := encap le src_entry dest ctx1.frame
      let ctx2 := { ctx1 with frame := r.1 }
      -- ssize_t padding = ETH_ZLEN - (sizeof(struct ethhdr) + iphdr_tot_len)
      let padding : Int := (ETH_ZLEN : Int) - ((sizeof_ethhdr : Int) + (r.2 : Int))
      if padding > 0 then
        match bpf_xdp_adjust_tail_neg ctx2 padding.toNat with
        | none =>
          EXIT maps XDP_DROP
            (some { c2 with failed_adjust_tail_total := incr64 c2.failed_adjust_tail_total })
            ctx2
        | some ctx3 => EXIT maps XDP_TX (some c2) ctx3
      else
        EXIT maps XDP_TX (some c2) ctx2

/-- Running `lb_main` `n` times in succession on the same packet: each run starts from the
statistics record the previous run left; the configuration and tables do not change. The
result is the statistics record after the last run. -/
def lb_main_iter (le : Bool) (maps : Maps) (ctx : xdp_md) : Nat → Option stat_counters
  | 0 => maps.stat_counters_map
  | n + 1 =>
    (lb_main le { maps with stat_counters_map := lb_main_iter le maps ctx n } ctx).stats

/-! ## Vocabulary of the statements -/

/-- Big-endian (network order) reading of the 16 bits at offset `off`. -/
def be16 (m : List Nat) (off : Nat) : Nat := 256 * load8 m off + load8 m (off + 1)

/-- Big-endian (network order) reading of the 32 bits at offset `off`. -/
def be32 (m : List Nat) (off : Nat) : Nat := 65536 * be16 m off + be16 m (off + 2)

/-- Every element of the list is a byte. -/
def bytes_wf (m : List Nat) : Prop := ∀ b ∈ m, b < 256

instance (m : List Nat) : Decidable (bytes_wf m) := by
  unfold bytes_wf; infer_instance

/-- A destination entry holds a 32-bit address and `ETH_ALEN` bytes. -/
def dest_wf (d : destination_entry) : Prop :=
  d.ip_address < 2 ^ 32 ∧ d.mac_address.length = ETH_ALEN ∧ bytes_wf d.mac_address

instance (d : destination_entry) : Decidable (dest_wf d) := by
  unfold dest_wf; infer_instance

/-- Every counter of the record is a `uint64_t` value. -/
def stats_wf (c : stat_counters) : Prop :=
  c.rx_packet_total < 2 ^ 64 ∧ c.rx_total_size < 2 ^ 64 ∧ c.too_short_packet_total < 2 ^ 64 ∧
  c.non_ipv4_packet_total < 2 ^ 64 ∧ c.ip_option_packet_total < 2 ^ 64 ∧
  c.non_supported_proto_packet_total < 2 ^ 64 ∧ c.no_vip_match_total < 2 ^ 64 ∧
  c.failed_adjust_head_total < 2 ^ 64 ∧ c.failed_adjust_tail_total < 2 ^ 64

instance (c : stat_counters) : Decidable (stats_wf c) := by
  unfold stats_wf; infer_instance

/-- End-around carry: the high 16 bits are added back until no carry remains
(`fuel` rounds at most; two rounds settle every 32-bit sum). -/
def fold_carry : Nat → Nat → Nat
  | 0, s => s
  | fuel + 1, s => if s < 65536 then s else fold_carry fuel (s % 65536 + s / 65536)

/-- Sum of the `n` big-endian 16-bit words that start at offset `off`. -/
def sum_be16 (m : List Nat) (off : Nat) : Nat → Nat
  | 0 => 0
  | n + 1 => sum_be16 m off n + be16 m (off + 2 * n)

/-- Receiver-side validation of the IPv4 header at offset `off`, as the specification
words it: the ones-complement sum of all ten 16-bit words, the stored checksum included,
folded until no carry remains, then complemented. A valid header gives 0. -/
def spec_header_check (m : List Nat) (off : Nat) : Nat :=
  65535 - fold_carry 4 (sum_be16 m off 10)

/-! ## Sample data -/

/-- Entry 0: the load balancer itself, 192.168.1.1 (address as held on a little-endian
target). -/
def ex_lb : destination_entry := ⟨0x0101A8C0, [0x02, 0, 0, 0, 0, 0x10]⟩
/-- Backend 1: 192.168.1.2. -/
def ex_dest1 : destination_entry := ⟨0x0201A8C0, [0x02, 0, 0, 0, 0, 0x11]⟩
/-- Backend 2: 192.168.1.3. -/
def ex_dest2 : destination_entry := ⟨0x0301A8C0, [0x02, 0, 0, 0, 0, 0x12]⟩
/-- Backend 3: 192.168.1.4. -/
def ex_dest3 : destination_entry := ⟨0x0401A8C0, [0x02, 0, 0, 0, 0, 0x13]⟩

/-- All-zero statistics. -/
def ex_stats : stat_counters := ⟨0, 0, 0, 0, 0, 0, 0, 0, 0⟩

/-- A destination table with entry 0 and three backends. -/
def ex_table (i : Nat) : Option destination_entry :=
  if i = 0 then some ex_lb else if i = 1 then some ex_dest1
  else if i = 2 then some ex_dest2 else if i = 3 then some ex_dest3 else none

/-- Maps of a little-endian target: virtual address 10.0.0.100, `n` destinations, no
chained program installed. -/
def ex_maps (n : Nat) : Maps :=
  { stat_counters_map := some ex_stats
    lb_config_map := some ⟨0x6400000A, n⟩
    destinations_map := ex_table
    xdpcap_hook := fun _ => false }

/-- An Ethernet frame carrying an IPv4 header (no options, destination 10.0.0.100) and a
TCP SYN header, followed by `pad` zero bytes of padding. -/
def ex_frame (saddr sport tot_len id : List Nat) (proto pad : Nat) : List Nat :=
  [0x02, 0, 0, 0, 0, 0x01, 0x02, 0, 0, 0, 0, 0x99, 0x08, 0x00]
    ++ [0x45, 0x00] ++ tot_len ++ id ++ [0x40, 0x00, 0x40, proto, 0xAA, 0xBB]
    ++ saddr ++ [10, 0, 0, 100]
    ++ sport ++ [0x00, 0x50, 0, 0, 0, 1, 0, 0, 0, 0, 0x50, 0x02, 0xFF, 0xFF, 0x12, 0x34, 0, 0]
    ++ List.replicate pad 0

/-- A context with 32 bytes of headroom in front of the frame. -/
def ex_ctx (frame : List Nat) : xdp_md :=
  { headroom := List.replicate 32 0xEE, frame := frame, tail_adjustable := true }

/-- A SYN from 10.1.2.3 port 4661, total length 40, identification 0x4796, padded to 60
bytes. -/
def ex_syn : List Nat := ex_frame [10, 1, 2, 3] [0x12, 0x35] [0, 40] [0x47, 0x96] 6 6

/-- The same SYN with identification 0x4795. -/
def ex_syn_4795 : List Nat := ex_frame [10, 1, 2, 3] [0x12, 0x35] [0, 40] [0x47, 0x95] 6 6

/-- A SYN from 10.1.255.255 port 63231 (bytes F6 FF), padded to 60 bytes. -/
def ex_syn_wrap : List Nat := ex_frame [10, 1, 255, 255] [0xF6, 0xFF] [0, 40] [0x47, 0x96] 6 6

/-- A 54-byte frame whose IPv4 total-length field is 0. -/
def ex_len0 : List Nat := ex_frame [10, 1, 2, 3] [0x12, 0x35] [0, 0] [0x47, 0x96] 6 0

/-- A 54-byte frame whose IPv4 total-length field is 65535. -/
def ex_len_max : List Nat := ex_frame [10, 1, 2, 3] [0x12, 0x35] [0xFF, 0xFF] [0x47, 0x96] 6 0

/-- A UDP datagram to the virtual address, padded to 60 bytes. -/
def ex_udp : List Nat := ex_frame [10, 1, 2, 3] [0x12, 0x35] [0, 40] [0x47, 0x96] 17 6

/-- A frame of 20 bytes. -/
def ex_short : List Nat := List.replicate 20 0

/-- A context without headroom: the driver gives no room in front of the frame. -/
def ex_ctx_no_headroom (frame : List Nat) : xdp_md :=
  { headroom := [], frame := frame, tail_adjustable := true }

/-- Running `lb_main` on a sequence of packets, one invocation after the other: each run
starts from the statistics record the previous run left; the configuration and tables do
not change. The result is the statistics record after the last run. -/
def lb_main_seq (le : Bool) (maps : Maps) : List xdp_md → Option stat_counters
  | [] => maps.stat_counters_map
  | ctx :: rest =>
    lb_main_seq le { maps with stat_counters_map := (lb_main le maps ctx).stats } rest

/-- Total number of frame bytes of a sequence of packets. -/
def total_size : List xdp_md → Nat
  | [] => 0
  | ctx :: rest => ctx.frame.length + total_size rest

/-- Every counter of `a` is at most the same counter of `b`. -/
def stat_le (a b : stat_counters) : Prop :=
  a.rx_packet_total ≤ b.rx_packet_total ∧ a.rx_total_size ≤ b.rx_total_size ∧
  a.too_short_packet_total ≤ b.too_short_packet_total ∧
  a.non_ipv4_packet_total ≤ b.non_ipv4_packet_total ∧
  a.ip_option_packet_total ≤ b.ip_option_packet_total ∧
  a.non_supported_proto_packet_total ≤ b.non_supported_proto_packet_total ∧
  a.no_vip_match_total ≤ b.no_vip_match_total ∧
  a.failed_adjust_head_total ≤ b.failed_adjust_head_total ∧
  a.failed_adjust_tail_total ≤ b.failed_adjust_tail_total

instance (a b : stat_counters) : Decidable (stat_le a b) := by
  unfold stat_le; infer_instance

/-- No counter of `c` reaches wrap-around within `n` more packets carrying `b` bytes in
total: every event counter stays below 2^64 after `n` increments and the byte counter
after `b` more bytes. -/
def no_wrap (c : stat_counters) (n b : Nat) : Prop :=
  c.rx_packet_total + n < 2 ^ 64 ∧ c.rx_total_size + b < 2 ^ 64 ∧
  c.too_short_packet_total + n < 2 ^ 64 ∧ c.non_ipv4_packet_total + n < 2 ^ 64 ∧
  c.ip_option_packet_total + n < 2 ^ 64 ∧
  c.non_supported_proto_packet_total + n < 2 ^ 64 ∧ c.no_vip_match_total + n < 2 ^ 64 ∧
  c.failed_adjust_head_total + n < 2 ^ 64 ∧ c.failed_adjust_tail_total + n < 2 ^ 64

instance (c : stat_counters) (n b : Nat) : Decidable (no_wrap c n b) := by
  unfold no_wrap; infer_instance

/-- The statistics record as the ordered sequence of its `uint64_t` fields, in the
declaration order of `struct stat_counters` (lb.c lines 26-35). -/
def stat_counters_fields (c : stat_counters) : List Nat :=
  [c.rx_packet_total, c.rx_total_size, c.too_short_packet_total, c.non_ipv4_packet_total,
   c.ip_option_packet_total, c.non_supported_proto_packet_total, c.no_vip_match_total,
   c.failed_adjust_head_total, c.failed_adjust_tail_total]

/-- A valid TCP segment without options and without padding: 54 bytes, inner total
length 40, as a device that does not pad short frames delivers it. -/
def ex_syn_unpadded : List Nat := ex_frame [10, 1, 2, 3] [0x12, 0x35] [0, 40] [0x47, 0x96] 6 0

/-- A padded 60-byte frame whose inner total length is 20. -/
def ex_len20 : List Nat := ex_frame [10, 1, 2, 3] [0x12, 0x35] [0, 20] [0x47, 0x96] 6 6

/-- The inputs on which `lb_main` reaches its last exit, `EXIT(XDP_TX)` at line 228,
whatever the hook map holds: the three stores give `c`, `config` and `src`, the frame
passes the five checks of lines 117-144, the entry `dest` is found at the selected index,
the head expansion succeeds, and the tail shrink is allowed whenever line 218 asks for
one. A TRANSMIT outcome is a run on these inputs. -/
def transmit_path (le : Bool) (maps : Maps) (ctx : xdp_md) (c : stat_counters)
    (config : lb_config) (src dest : destination_entry) : Prop :=
  maps.stat_counters_map = some c ∧ maps.lb_config_map = some config ∧
  maps.destinations_map 0 = some src ∧
  54 ≤ ctx.frame.length ∧ iphdr_version ctx.frame 14 = 4 ∧ iphdr_ihl ctx.frame 14 = 5 ∧
  load32 le ctx.frame 30 = config.vip_address ∧ load8 ctx.frame 23 = IPPROTO_TCP ∧
  maps.destinations_map (dest_idx le config ctx.frame) = some dest ∧
  (bpf_xdp_adjust_head_neg ctx sizeof_iphdr).isSome = true ∧
  (14 + ntohs le (load16 le ctx.frame 16) < 60 → ctx.tail_adjustable = true)

instance (le : Bool) (maps : Maps) (ctx : xdp_md) (c : stat_counters) (config : lb_config)
    (src dest : destination_entry) : Decidable (transmit_path le maps ctx c config src dest) := by
  unfold transmit_path; infer_instance

/-- A padded 60-byte frame whose IPv4 total-length field is 0. -/
def ex_len0_padded : List Nat := ex_frame [10, 1, 2, 3] [0x12, 0x35] [0, 0] [0x47, 0x96] 6 6

/-- Maps like `ex_maps n`, with a chained program installed in every slot of the hook
map. -/
def ex_maps_hooked (n : Nat) : Maps := { ex_maps n with xdpcap_hook := fun _ => true }

/-! ## Memory lemmas and the paths of `lb_main` -/

@[simp]
theorem length_store8 (m : List Nat) (i v : Nat) : (store8 m i v).length = m.length := by
  simp [store8]

@[simp]
theorem length_store16 (le : Bool) (m : List Nat) (i v : Nat) :
    (store16 le m i v).length = m.length := by
  cases le <;> simp [store16]

@[simp]
theorem length_store32 (le : Bool) (m : List Nat) (i v : Nat) :
    (store32 le m i v).length = m.length := by
  cases le <;> simp [store32]

@[simp]
theorem length_memcpy (m : List Nat) (off : Nat) (src : List Nat) (n : Nat) :
    (memcpy m off src n).length = m.length := by
  induction n with
  | zero => rfl
  | succ k ih => simp [memcpy, ih]

@[simp]
theorem length_set_iphdr_version (m : List Nat) (i v : Nat) :
    (set_iphdr_version m i v).length = m.length := by
  simp [set_iphdr_version]

@[simp]
theorem length_set_iphdr_ihl (m : List Nat) (i v : Nat) :
    (set_iphdr_ihl m i v).length = m.length := by
  simp [set_iphdr_ihl]

theorem load8_store8 (m : List Nat) (i j v : Nat) :
    load8 (store8 m i v) j = if i = j then (if i < m.length then v % 256 else load8 m j) else load8 m j := by
  unfold load8 store8
  simp only [List.getD_eq_getElem?_getD, List.getElem?_set]
  by_cases h : i = j
  · subst h
    by_cases h2 : i < m.length
    · simp [h2]
    · simp [h2, List.getElem?_eq_none (Nat.le_of_not_lt h2)]
  · simp [h]

theorem load8_store8_ne (m : List Nat) (i j v : Nat) (h : i ≠ j) :
    load8 (store8 m i v) j = load8 m j := by
  simp [load8_store8, h]

theorem load8_store8_eq (m : List Nat) (i v : Nat) (h : i < m.length) :
    load8 (store8 m i v) i = v % 256 := by
  simp [load8_store8, h]

theorem drop_store8 (m : List Nat) (i n v : Nat) (h : i < n) :
    (store8 m i v).drop n = m.drop n := by
  unfold store8
  exact List.drop_set_of_lt _ _ h

theorem load8_take (m : List Nat) (j k : Nat) (h : j < k) : load8 (m.take k) j = load8 m j := by
  unfold load8
  simp [List.getElem?_take_of_lt h]

theorem load8_lt_of_wf (m : List Nat) (h : ∀ b ∈ m, b < 256) (j : Nat) : load8 m j < 256 := by
  unfold load8
  rw [List.getD_eq_getElem?_getD]
  cases hj : m[j]? with
  | none => simp
  | some b => 
    simp only [Option.getD_some]
    exact h b (List.getElem?_mem hj)

theorem encap_length (le : Bool) (s d : destination_entry) (f0 : List Nat) :
    (encap le s d f0).1.length = f0.length := by
  simp [encap]

theorem encap_drop (le : Bool) (s d : destination_entry) (f0 : List Nat) :
    (encap le s d f0).1.drop 34 = f0.drop 34 := by
  cases le <;>
  simp [encap, store16, store32, memcpy, ETH_ALEN, set_iphdr_version, set_iphdr_ihl, drop_store8]

theorem encap_snd (le : Bool) (s d : destination_entry) (f0 : List Nat) :
    (encap le s d f0).2 = ntohs le (load16 le f0 36) := by
  cases le <;>
  simp [encap, store16, load16, memcpy, ETH_ALEN, load8_store8]


theorem load8_append_right (a b : List Nat) (j k : Nat) (ha : a.length = k) (hj : k ≤ j) :
    load8 (a ++ b) j = load8 b (j - k) := by
  unfold load8
  subst ha
  simp [List.getElem?_append_right hj]

theorem length_drop_headroom (l : List Nat) (n : Nat) (h : n ≤ l.length) :
    (l.drop (l.length - n)).length = n := by
  simp; omega

theorem exit_ret_ne (maps : Maps) (a b : Nat) (c : Option stat_counters) (ctx : xdp_md)
    (hab : a ≠ b) : (EXIT maps a c ctx).ret ≠ some b := by
  unfold EXIT xdpcap_exit
  by_cases hh : maps.xdpcap_hook a = true
  · simp [hh]
  · simp [hh, hab]

theorem lb_main_accept (le : Bool) (maps : Maps) (ctx : xdp_md) (c : stat_counters)
    (config : lb_config) (src dest : destination_entry)
    (hs : maps.stat_counters_map = some c) (hc : maps.lb_config_map = some config)
    (h0 : maps.destinations_map 0 = some src)
    (hlen : 54 ≤ ctx.frame.length) (hv : iphdr_version ctx.frame 14 = 4)
    (hi : iphdr_ihl ctx.frame 14 = 5) (hvip : load32 le ctx.frame 30 = config.vip_address)
    (hp : load8 ctx.frame 23 = IPPROTO_TCP)
    (hd : maps.destinations_map (dest_idx le config ctx.frame) = some dest)
    (hh : 20 ≤ ctx.headroom.length)
    (ht : 14 + ntohs le (load16 le ctx.frame 16) < 60 → ctx.tail_adjustable = true) :
    lb_main le maps ctx =
      EXIT maps XDP_TX
        (some { c with rx_packet_total := incr64 c.rx_packet_total,
                       rx_total_size := add64 c.rx_total_size ctx.frame.length })
        { headroom := ctx.headroom.take (ctx.headroom.length - 20),
          frame := (encap le src dest
              (ctx.headroom.drop (ctx.headroom.length - 20) ++ ctx.frame)).1.take
                (20 + ctx.frame.length - (46 - ntohs le (load16 le ctx.frame 16))),
          tail_adjustable := ctx.tail_adjustable } := by
  have hlen' : ¬ (14 + 20 + 20 > ctx.frame.length) := by omega
  have hr := length_drop_headroom ctx.headroom 20 hh
  have hT : (encap le src dest (ctx.headroom.drop (ctx.headroom.length - 20) ++ ctx.frame)).2
      = ntohs le (load16 le ctx.frame 16) := by
    rw [encap_snd]
    congr 1
    cases le <;> simp [load16, load8_append_right _ _ _ 20 hr]
  have hah : bpf_xdp_adjust_head_neg ctx 20 = some
      { headroom := ctx.headroom.take (ctx.headroom.length - 20),
        frame := ctx.headroom.drop (ctx.headroom.length - 20) ++ ctx.frame,
        tail_adjustable := ctx.tail_adjustable } := by
    simp [bpf_xdp_adjust_head_neg, hh]
  have h74 : ¬ (14 + 20 + 20 >
      (ctx.headroom.drop (ctx.headroom.length - 20) ++ ctx.frame).length) := by
    rw [List.length_append, hr]; omega
  simp only [lb_main, hs, hc, h0, hd, sizeof_ethhdr, sizeof_iphdr, sizeof_tcphdr, hv, hi, hvip, hp,
    hah, hlen', h74, ne_eq, not_true_eq_false, if_false, hT, ETH_ZLEN]
  by_cases hpad : 14 + ntohs le (load16 le ctx.frame 16) < 60
  · have hpad' : ((60 : Nat) : Int) - (((14 : Nat) : Int) + (ntohs le (load16 le ctx.frame 16) : Int)) > 0 := by
      omega
    have hn : (((60 : Nat) : Int) - (((14 : Nat) : Int) + (ntohs le (load16 le ctx.frame 16) : Int))).toNat
        = 46 - ntohs le (load16 le ctx.frame 16) := by omega
    have hat : bpf_xdp_adjust_tail_neg
        { headroom := ctx.headroom.take (ctx.headroom.length - 20),
          frame := (encap le src dest
            (ctx.headroom.drop (ctx.headroom.length - 20) ++ ctx.frame)).1,
          tail_adjustable := ctx.tail_adjustable } (46 - ntohs le (load16 le ctx.frame 16))
        = some
        { headroom := ctx.headroom.take (ctx.headroom.length - 20),
          frame := (encap le src dest
              (ctx.headroom.drop (ctx.headroom.length - 20) ++ ctx.frame)).1.take
                (20 + ctx.frame.length - (46 - ntohs le (load16 le ctx.frame 16))),
          tail_adjustable := ctx.tail_adjustable } := by
      have : ETH_HLEN + (46 - ntohs le (load16 le ctx.frame 16)) ≤ 20 + ctx.frame.length := by
        unfold ETH_HLEN; omega
      simp [bpf_xdp_adjust_tail_neg, ht hpad, encap_length, hr, this]
    simp only [hpad', if_true, hn, hat]
  · have hpad' : ¬ (((60 : Nat) : Int) - (((14 : Nat) : Int) + (ntohs le (load16 le ctx.frame 16) : Int)) > 0) := by
      omega
    have hz : 46 - ntohs le (load16 le ctx.frame 16) = 0 := by omega
    have htk : (encap le src dest
        (ctx.headroom.drop (ctx.headroom.length - 20) ++ ctx.frame)).1.take
          (20 + ctx.frame.length - (46 - ntohs le (load16 le ctx.frame 16)))
        = (encap le src dest (ctx.headroom.drop (ctx.headroom.length - 20) ++ ctx.frame)).1 := by
      apply List.take_of_length_le
      rw [encap_length, List.length_append, hr, hz]
      omega
    simp only [hpad', if_false, htk]


theorem lb_main_tx_inv (le : Bool) (maps : Maps) (ctx : xdp_md)
    (h : (lb_main le maps ctx).ret = some XDP_TX) :
    ∃ c config src dest,
      maps.stat_counters_map = some c ∧ maps.lb_config_map = some config ∧
      maps.destinations_map 0 = some src ∧
      maps.destinations_map (dest_idx le config ctx.frame) = some dest ∧
      54 ≤ ctx.frame.length ∧ iphdr_version ctx.frame 14 = 4 ∧ iphdr_ihl ctx.frame 14 = 5 ∧
      load32 le ctx.frame 30 = config.vip_address ∧ load8 ctx.frame 23 = IPPROTO_TCP ∧
      20 ≤ ctx.headroom.length ∧
      (14 + ntohs le (load16 le ctx.frame 16) < 60 → ctx.tail_adjustable = true) := by
  have hPT : XDP_PASS ≠ XDP_TX := by decide
  have hDT : XDP_DROP ≠ XDP_TX := by decide
  unfold lb_main at h
  cases hs : maps.stat_counters_map with
  | none => simp only [hs] at h; exact absurd h (exit_ret_ne _ _ _ _ _ hPT)
  | some c =>
  cases hc : maps.lb_config_map with
  | none => simp only [hs, hc] at h; exact absurd h (exit_ret_ne _ _ _ _ _ hPT)
  | some config =>
  cases h0 : maps.destinations_map 0 with
  | none => simp only [hs, hc, h0] at h; exact absurd h (exit_ret_ne _ _ _ _ _ hPT)
  | some src =>
  simp only [hs, hc, h0, sizeof_ethhdr, sizeof_iphdr, sizeof_tcphdr] at h
  by_cases hlen : 14 + 20 + 20 > ctx.frame.length
  · simp only [hlen, if_true] at h; exact absurd h (exit_ret_ne _ _ _ _ _ hPT)
  simp only [hlen, if_false] at h
  by_cases hv : iphdr_version ctx.frame 14 ≠ 4
  · rw [if_pos hv] at h; exact absurd h (exit_ret_ne _ _ _ _ _ hPT)
  rw [if_neg hv] at h
  by_cases hi : iphdr_ihl ctx.frame 14 ≠ 5
  · rw [if_pos hi] at h; exact absurd h (exit_ret_ne _ _ _ _ _ hPT)
  rw [if_neg hi] at h
  by_cases hvip : load32 le ctx.frame (14 + 16) ≠ config.vip_address
  · rw [if_pos hvip] at h; exact absurd h (exit_ret_ne _ _ _ _ _ hPT)
  rw [if_neg hvip] at h
  by_cases hp : load8 ctx.frame (14 + 9) ≠ IPPROTO_TCP
  · rw [if_pos hp] at h; exact absurd h (exit_ret_ne _ _ _ _ _ hPT)
  rw [if_neg hp] at h
  cases hd : maps.destinations_map (dest_idx le config ctx.frame) with
  | none => simp only [hd] at h; exact absurd h (exit_ret_ne _ _ _ _ _ hDT)
  | some dest =>
  simp only [hd] at h
  by_cases hh : 20 ≤ ctx.headroom.length
  swap
  · simp only [bpf_xdp_adjust_head_neg, hh, if_false] at h
    exact absurd h (exit_ret_ne _ _ _ _ _ hDT)
  refine ⟨c, config, src, dest, rfl, rfl, rfl, hd, by omega, not_not.mp hv, not_not.mp hi,
    not_not.mp hvip, not_not.mp hp, hh, ?_⟩
  intro hpad
  have hr := length_drop_headroom ctx.headroom 20 hh
  have hT : (encap le src dest (ctx.headroom.drop (ctx.headroom.length - 20) ++ ctx.frame)).2
      = ntohs le (load16 le ctx.frame 16) := by
    rw [encap_snd]
    congr 1
    cases le <;> simp [load16, load8_append_right _ _ _ 20 hr]
  have h74 : ¬ (14 + 20 + 20 >
      (ctx.headroom.drop (ctx.headroom.length - 20) ++ ctx.frame).length) := by
    rw [List.length_append, hr]; omega
  have hpad' : ((60 : Nat) : Int) - (((14 : Nat) : Int) + (ntohs le (load16 le ctx.frame 16) : Int)) > 0 := by
    omega
  simp only [bpf_xdp_adjust_head_neg, hh, if_true, h74, if_false, hT, ETH_ZLEN, hpad'] at h
  cases hta : ctx.tail_adjustable with
  | true => rfl
  | false =>
    simp only [bpf_xdp_adjust_tail_neg, hta, Bool.false_and] at h
    exact absurd h (exit_ret_ne _ _ _ _ _ hDT)


theorem load8_store8_in (m : List Nat) (i j v : Nat) (h : i < m.length) :
    load8 (store8 m i v) j = if i = j then v % 256 else load8 m j := by
  simp [load8_store8, h]

theorem load8_store16_ne (le : Bool) (m : List Nat) (off v j : Nat)
    (h1 : j ≠ off) (h2 : j ≠ off + 1) : load8 (store16 le m off v) j = load8 m j := by
  cases le <;> simp [store16, load8_store8, Ne.symm h1, Ne.symm h2]

theorem load8_store32_ne (le : Bool) (m : List Nat) (off v j : Nat)
    (h : j < off ∨ off + 4 ≤ j) : load8 (store32 le m off v) j = load8 m j := by
  have h0 : off ≠ j := by omega
  have h1 : off + 1 ≠ j := by omega
  have h2 : off + 2 ≠ j := by omega
  have h3 : off + 3 ≠ j := by omega
  cases le <;> simp [store32, load8_store8, h0, h1, h2, h3]

theorem load8_memcpy_ne (m : List Nat) (off : Nat) (src : List Nat) (n j : Nat)
    (h : j < off ∨ off + n ≤ j) : load8 (memcpy m off src n) j = load8 m j := by
  induction n with
  | zero => rfl
  | succ k ih =>
    have hk : off + k ≠ j := by omega
    rw [memcpy, load8_store8_ne _ _ _ _ hk]
    exact ih (by omega)

theorem load8_memcpy_hit (m : List Nat) (off : Nat) (src : List Nat) (n i : Nat)
    (hi : i < n) (hl : off + n ≤ m.length) :
    load8 (memcpy m off src n) (off + i) = load8 src i % 256 := by
  induction n with
  | zero => omega
  | succ k ih =>
    rw [memcpy]
    by_cases hik : i = k
    · subst hik
      rw [load8_store8_eq _ _ _ (by rw [length_memcpy]; omega)]
      rfl
    · have hk : off + k ≠ off + i := by omega
      rw [load8_store8_ne _ _ _ _ hk]
      exact ih (by omega) (by omega)

theorem load8_set_iphdr_version_ne (m : List Nat) (off v j : Nat) (h : j ≠ off) :
    load8 (set_iphdr_version m off v) j = load8 m j := by
  unfold set_iphdr_version
  exact load8_store8_ne _ _ _ _ (Ne.symm h)

theorem load8_set_iphdr_ihl_ne (m : List Nat) (off v j : Nat) (h : j ≠ off) :
    load8 (set_iphdr_ihl m off v) j = load8 m j := by
  unfold set_iphdr_ihl
  exact load8_store8_ne _ _ _ _ (Ne.symm h)

theorem load8_store16_fst (le : Bool) (m : List Nat) (off v : Nat) (h : off + 1 < m.length) :
    load8 (store16 le m off v) off = (if le then v % 256 else v / 256 % 256) := by
  cases le <;> simp [store16, load8_store8, show off < m.length by omega]

theorem load8_store16_snd (le : Bool) (m : List Nat) (off v : Nat) (h : off + 1 < m.length) :
    load8 (store16 le m off v) (off + 1) = (if le then v / 256 % 256 else v % 256) := by
  cases le <;> simp [store16, load8_store8, h]

theorem be16_store16_htons (le : Bool) (m : List Nat) (off v : Nat) (h : off + 1 < m.length) :
    be16 (store16 le m off (htons le v)) off = v % 65536 := by
  unfold be16
  rw [load8_store16_fst _ _ _ _ h, load8_store16_snd _ _ _ _ h]
  have hdd : v / 256 / 256 = v / 65536 := by rw [Nat.div_div_eq_div_mul]
  cases le
  · simp only [htons, Bool.false_eq_true, if_false]
    omega
  · simp only [htons, bswap16, if_true]
    have h1 : (v % 256 * 256 + v / 256 % 256) % 256 = v / 256 % 256 := by omega
    have h2 : (v % 256 * 256 + v / 256 % 256) / 256 = v % 256 := by omega
    rw [h1, h2]
    omega

theorem be16_congr (m m' : List Nat) (off : Nat) (h0 : load8 m off = load8 m' off)
    (h1 : load8 m (off + 1) = load8 m' (off + 1)) : be16 m off = be16 m' off := by
  unfold be16; rw [h0, h1]

theorem load16_congr (le : Bool) (m m' : List Nat) (off : Nat) (h0 : load8 m off = load8 m' off)
    (h1 : load8 m (off + 1) = load8 m' (off + 1)) : load16 le m off = load16 le m' off := by
  unfold load16; rw [h0, h1]

theorem load32_congr (le : Bool) (m m' : List Nat) (off : Nat) (h0 : load8 m off = load8 m' off)
    (h1 : load8 m (off + 1) = load8 m' (off + 1)) (h2 : load8 m (off + 2) = load8 m' (off + 2))
    (h3 : load8 m (off + 3) = load8 m' (off + 3)) : load32 le m off = load32 le m' off := by
  unfold load32; rw [h0, h1, h2, h3]

theorem load32_store32 (le : Bool) (m : List Nat) (off v : Nat) (h : off + 3 < m.length)
    (hv : v < 2 ^ 32) : load32 le (store32 le m off v) off = v := by
  have h0 : off < m.length := by omega
  have h1 : off + 1 < m.length := by omega
  have h2 : off + 2 < m.length := by omega
  cases le <;> simp [load32, store32, load8_store8, h0, h1, h2, h] <;> omega

theorem ntohs_load16 (le : Bool) (m : List Nat) (off : Nat) (h0 : load8 m off < 256)
    (h1 : load8 m (off + 1) < 256) : ntohs le (load16 le m off) = be16 m off := by
  cases le <;> simp [ntohs, load16, be16, bswap16] <;> omega


theorem encap_eth_proto (le : Bool) (s d : destination_entry) (f0 : List Nat)
    (h : 34 ≤ f0.length) : be16 (encap le s d f0).1 12 = ETH_P_IP := by
  have hj : ∀ j, 12 ≤ j → j < 14 →
      load8 (encap le s d f0).1 j = load8 (store16 le f0 12 (htons le ETH_P_IP)) j := by
    intro j h1 h2
    simp (disch := omega) only [encap, ETH_ALEN, load8_store16_ne, load8_store32_ne,
      load8_store8_ne, load8_memcpy_ne, load8_set_iphdr_version_ne, load8_set_iphdr_ihl_ne]
  rw [be16_congr _ _ 12 (hj 12 (by omega) (by omega)) (hj 13 (by omega) (by omega)),
    be16_store16_htons _ _ _ _ (by omega)]
  rfl

theorem encap_h_source (le : Bool) (s d : destination_entry) (f0 : List Nat)
    (h : 34 ≤ f0.length) (i : Nat) (hi : i < 6) :
    load8 (encap le s d f0).1 (6 + i) = load8 s.mac_address i % 256 := by
  have hj : load8 (encap le s d f0).1 (6 + i) =
      load8 (memcpy (store16 le f0 12 (htons le ETH_P_IP)) 6 s.mac_address 6) (6 + i) := by
    simp (disch := omega) only [encap, ETH_ALEN, load8_store16_ne, load8_store32_ne,
      load8_store8_ne, load8_memcpy_ne, load8_set_iphdr_version_ne, load8_set_iphdr_ihl_ne]
  rw [hj, load8_memcpy_hit _ _ _ _ _ hi (by rw [length_store16]; omega)]

theorem encap_h_dest (le : Bool) (s d : destination_entry) (f0 : List Nat)
    (h : 34 ≤ f0.length) (i : Nat) (hi : i < 6) :
    load8 (encap le s d f0).1 i = load8 d.mac_address i % 256 := by
  have hj : load8 (encap le s d f0).1 i =
      load8 (memcpy (memcpy (store16 le f0 12 (htons le ETH_P_IP)) 6 s.mac_address 6)
        0 d.mac_address 6) (0 + i) := by
    rw [Nat.zero_add]
    simp (disch := omega) only [encap, ETH_ALEN, load8_store16_ne, load8_store32_ne,
      load8_store8_ne, load8_memcpy_ne, load8_set_iphdr_version_ne, load8_set_iphdr_ihl_ne]
  rw [hj, load8_memcpy_hit _ _ _ _ _ hi (by rw [length_memcpy, length_store16]; omega)]

theorem encap_vhl (le : Bool) (s d : destination_entry) (f0 : List Nat)
    (h : 34 ≤ f0.length) : load8 (encap le s d f0).1 14 = 69 := by
  have hj : ∀ m : List Nat, 14 < m.length →
      load8 (set_iphdr_ihl (set_iphdr_version m 14 4) 14 5) 14 = 69 := by
    intro m hm
    have h1 : load8 (store8 m 14 (4 % 16 * 16 + load8 m 14 % 16)) 14
        = (4 % 16 * 16 + load8 m 14 % 16) % 256 := load8_store8_eq _ _ _ hm
    unfold set_iphdr_ihl set_iphdr_version
    rw [load8_store8_eq _ _ _ (by rw [length_store8]; exact hm), h1]
    omega
  simp (disch := omega) only [encap, load8_store16_ne, load8_store32_ne, load8_store8_ne]
  apply hj
  simp only [length_memcpy, length_store16]
  omega

theorem encap_tos (le : Bool) (s d : destination_entry) (f0 : List Nat)
    (h : 34 ≤ f0.length) : load8 (encap le s d f0).1 15 = 0 := by
  simp (disch := omega) only [encap, load8_store16_ne, load8_store32_ne, load8_store8_ne]
  rw [load8_store8_eq]
  simp only [length_set_iphdr_ihl, length_set_iphdr_version, length_memcpy, length_store16]
  omega


theorem be16_store8_ne (m : List Nat) (i v off : Nat) (h : i < off ∨ off + 2 ≤ i) :
    be16 (store8 m i v) off = be16 m off :=
  be16_congr _ _ _ (load8_store8_ne _ _ _ _ (by omega)) (load8_store8_ne _ _ _ _ (by omega))

theorem be16_store16_ne (le : Bool) (m : List Nat) (i v off : Nat)
    (h : i + 2 ≤ off ∨ off + 2 ≤ i) : be16 (store16 le m i v) off = be16 m off :=
  be16_congr _ _ _ (load8_store16_ne _ _ _ _ _ (by omega) (by omega))
    (load8_store16_ne _ _ _ _ _ (by omega) (by omega))

theorem be16_store32_ne (le : Bool) (m : List Nat) (i v off : Nat)
    (h : i + 4 ≤ off ∨ off + 2 ≤ i) : be16 (store32 le m i v) off = be16 m off :=
  be16_congr _ _ _ (load8_store32_ne _ _ _ _ _ (by omega)) (load8_store32_ne _ _ _ _ _ (by omega))

theorem load32_store16_ne (le : Bool) (m : List Nat) (i v off : Nat)
    (h : i + 2 ≤ off ∨ off + 4 ≤ i) : load32 le (store16 le m i v) off = load32 le m off :=
  load32_congr _ _ _ _ (load8_store16_ne _ _ _ _ _ (by omega) (by omega))
    (load8_store16_ne _ _ _ _ _ (by omega) (by omega))
    (load8_store16_ne _ _ _ _ _ (by omega) (by omega))
    (load8_store16_ne _ _ _ _ _ (by omega) (by omega))

theorem load32_store32_ne (le : Bool) (m : List Nat) (i v off : Nat)
    (h : i + 4 ≤ off ∨ off + 4 ≤ i) : load32 le (store32 le m i v) off = load32 le m off :=
  load32_congr _ _ _ _ (load8_store32_ne _ _ _ _ _ (by omega))
    (load8_store32_ne _ _ _ _ _ (by omega)) (load8_store32_ne _ _ _ _ _ (by omega))
    (load8_store32_ne _ _ _ _ _ (by omega))

/-- Bytes 34 and up of the frame are untouched by every store of `encap` before the
checksum: the inner header as read while the outer one is built. -/
theorem load8_inner_untouched (le : Bool) (s d : destination_entry) (f0 : List Nat) (v j : Nat)
    (hj : 34 ≤ j) :
    load8 (store16 le (store8 (set_iphdr_ihl (set_iphdr_version
      (memcpy (memcpy (store16 le f0 12 (htons le ETH_P_IP)) 6 s.mac_address ETH_ALEN) 0
        d.mac_address ETH_ALEN) 14 4) 14 5) 15 0) 16 v) j = load8 f0 j := by
  simp (disch := omega) only [ETH_ALEN, load8_store16_ne, load8_store8_ne, load8_memcpy_ne,
    load8_set_iphdr_version_ne, load8_set_iphdr_ihl_ne]

theorem encap_tot_len (le : Bool) (s d : destination_entry) (f0 : List Nat)
    (h : 34 ≤ f0.length) :
    be16 (encap le s d f0).1 16 = (ntohs le (load16 le f0 36) + 20) % 65536 := by
  have hT := encap_snd le s d f0
  simp only [encap] at hT
  simp (disch := omega) only [encap, be16_store16_ne, be16_store32_ne, be16_store8_ne]
  rw [be16_store16_htons, hT]
  · rfl
  · simp only [length_store8, length_set_iphdr_ihl, length_set_iphdr_version, length_memcpy,
      length_store16]
    omega

theorem compl16_le (a b : Nat) (ha : a < 256) (hb : b < 256) :
    256 * ((2 ^ 32 - 1 - (a + 256 * b)) % 65536 % 256)
      + (2 ^ 32 - 1 - (a + 256 * b)) % 65536 / 256 % 256 = 65535 - (256 * a + b) := by
  have h1 : (2 ^ 32 - 1 - (a + 256 * b)) % 65536 = 65535 - (a + 256 * b) := by omega
  have h2 : (65535 - (a + 256 * b)) % 256 = 255 - a := by omega
  have h3 : (65535 - (a + 256 * b)) / 256 = 255 - b := by omega
  rw [h1, h2, h3]
  omega

theorem compl16_be (a b : Nat) (ha : a < 256) (hb : b < 256) :
    256 * ((2 ^ 32 - 1 - (256 * a + b)) % 65536 / 256 % 256)
      + (2 ^ 32 - 1 - (256 * a + b)) % 65536 % 256 = 65535 - (256 * a + b) := by
  have h1 : (2 ^ 32 - 1 - (256 * a + b)) % 65536 = 65535 - (256 * a + b) := by omega
  have h2 : (65535 - (256 * a + b)) % 256 = 255 - b := by omega
  have h3 : (65535 - (256 * a + b)) / 256 = 255 - a := by omega
  rw [h1, h2, h3]
  omega

theorem encap_id (le : Bool) (s d : destination_entry) (f0 : List Nat)
    (h : 40 ≤ f0.length) (h38 : load8 f0 38 < 256) (h39 : load8 f0 39 < 256) :
    be16 (encap le s d f0).1 18 = 65535 - be16 f0 38 := by
  simp (disch := omega) only [encap, be16_store16_ne, be16_store32_ne, be16_store8_ne]
  unfold be16
  rw [load8_store16_fst, load8_store16_snd]
  · unfold load16
    simp only [Nat.reduceAdd]
    rw [load8_inner_untouched _ _ _ _ _ 38 (by omega), load8_inner_untouched _ _ _ _ _ 39 (by omega)]
    cases le
    · simp only [Bool.false_eq_true, if_false]
      exact compl16_be _ _ h38 h39
    · simp only [if_true]
      exact compl16_le _ _ h38 h39
  · simp only [length_store8, length_store16, length_set_iphdr_ihl, length_set_iphdr_version,
      length_memcpy]
    omega
  · simp only [length_store8, length_store16, length_set_iphdr_ihl, length_set_iphdr_version,
      length_memcpy]
    omega

theorem encap_frag (le : Bool) (s d : destination_entry) (f0 : List Nat)
    (h : 34 ≤ f0.length) : be16 (encap le s d f0).1 20 = IP_DF := by
  simp (disch := omega) only [encap, be16_store16_ne, be16_store32_ne, be16_store8_ne]
  rw [be16_store16_htons]
  · rfl
  · simp only [length_store8, length_store16, length_set_iphdr_ihl, length_set_iphdr_version,
      length_memcpy]
    omega

theorem encap_ttl (le : Bool) (s d : destination_entry) (f0 : List Nat)
    (h : 34 ≤ f0.length) : load8 (encap le s d f0).1 22 = 64 := by
  simp (disch := omega) only [encap, load8_store16_ne, load8_store32_ne, load8_store8_ne]
  rw [load8_store8_eq]
  simp only [length_store8, length_store16, length_set_iphdr_ihl, length_set_iphdr_version,
    length_memcpy]
  omega

theorem encap_protocol (le : Bool) (s d : destination_entry) (f0 : List Nat)
    (h : 34 ≤ f0.length) : load8 (encap le s d f0).1 23 = IPPROTO_IPIP := by
  simp (disch := omega) only [encap, load8_store16_ne, load8_store32_ne, load8_store8_ne]
  rw [load8_store8_eq]
  · rfl
  · simp only [length_store8, length_store16, length_set_iphdr_ihl, length_set_iphdr_version,
      length_memcpy]
    omega

theorem encap_saddr (le : Bool) (s d : destination_entry) (f0 : List Nat)
    (h : 34 ≤ f0.length) (hs : s.ip_address < 2 ^ 32) :
    load32 le (encap le s d f0).1 26 = s.ip_address := by
  simp (disch := omega) only [encap, load32_store16_ne, load32_store32_ne]
  rw [load32_store32 _ _ _ _ _ hs]
  simp only [length_store8, length_store16, length_set_iphdr_ihl, length_set_iphdr_version,
    length_memcpy]
  omega

theorem encap_daddr (le : Bool) (s d : destination_entry) (f0 : List Nat)
    (h : 34 ≤ f0.length) (hd : d.ip_address < 2 ^ 32) :
    load32 le (encap le s d f0).1 30 = d.ip_address := by
  simp (disch := omega) only [encap, load32_store16_ne, load32_store32_ne]
  rw [load32_store32 _ _ _ _ _ hd]
  simp only [length_store8, length_store16, length_store32, length_set_iphdr_ihl,
    length_set_iphdr_version, length_memcpy]
  omega


/-- Rejected frames: the five early exits of `lb_main` as equations. -/
theorem lb_main_too_short (le : Bool) (maps : Maps) (ctx : xdp_md) (c : stat_counters)
    (config : lb_config) (src : destination_entry)
    (hs : maps.stat_counters_map = some c) (hc : maps.lb_config_map = some config)
    (h0 : maps.destinations_map 0 = some src) (hlen : ctx.frame.length < 54) :
    lb_main le maps ctx = EXIT maps XDP_PASS
      (some { c with too_short_packet_total := incr64 c.too_short_packet_total }) ctx := by
  have h : 14 + 20 + 20 > ctx.frame.length := by omega
  simp only [lb_main, hs, hc, h0, sizeof_ethhdr, sizeof_iphdr, sizeof_tcphdr, h, if_true]

theorem lb_main_non_ipv4 (le : Bool) (maps : Maps) (ctx : xdp_md) (c : stat_counters)
    (config : lb_config) (src : destination_entry)
    (hs : maps.stat_counters_map = some c) (hc : maps.lb_config_map = some config)
    (h0 : maps.destinations_map 0 = some src) (hlen : 54 ≤ ctx.frame.length)
    (hv : iphdr_version ctx.frame 14 ≠ 4) :
    lb_main le maps ctx = EXIT maps XDP_PASS
      (some { c with non_ipv4_packet_total := incr64 c.non_ipv4_packet_total }) ctx := by
  have h : ¬ (14 + 20 + 20 > ctx.frame.length) := by omega
  simp only [lb_main, hs, hc, h0, sizeof_ethhdr, sizeof_iphdr, sizeof_tcphdr, h, if_false]
  rw [if_pos hv]

theorem lb_main_ip_option (le : Bool) (maps : Maps) (ctx : xdp_md) (c : stat_counters)
    (config : lb_config) (src : destination_entry)
    (hs : maps.stat_counters_map = some c) (hc : maps.lb_config_map = some config)
    (h0 : maps.destinations_map 0 = some src) (hlen : 54 ≤ ctx.frame.length)
    (hv : iphdr_version ctx.frame 14 = 4) (hi : iphdr_ihl ctx.frame 14 ≠ 5) :
    lb_main le maps ctx = EXIT maps XDP_PASS
      (some { c with ip_option_packet_total := incr64 c.ip_option_packet_total }) ctx := by
  have h : ¬ (14 + 20 + 20 > ctx.frame.length) := by omega
  simp only [lb_main, hs, hc, h0, sizeof_ethhdr, sizeof_iphdr, sizeof_tcphdr, h, if_false]
  rw [if_neg (not_not.mpr hv), if_pos hi]

theorem lb_main_no_vip_match (le : Bool) (maps : Maps) (ctx : xdp_md) (c : stat_counters)
    (config : lb_config) (src : destination_entry)
    (hs : maps.stat_counters_map = some c) (hc : maps.lb_config_map = some config)
    (h0 : maps.destinations_map 0 = some src) (hlen : 54 ≤ ctx.frame.length)
    (hv : iphdr_version ctx.frame 14 = 4) (hi : iphdr_ihl ctx.frame 14 = 5)
    (hvip : load32 le ctx.frame 30 ≠ config.vip_address) :
    lb_main le maps ctx = EXIT maps XDP_PASS
      (some { c with no_vip_match_total := incr64 c.no_vip_match_total }) ctx := by
  have h : ¬ (14 + 20 + 20 > ctx.frame.length) := by omega
  simp only [lb_main, hs, hc, h0, sizeof_ethhdr, sizeof_iphdr, sizeof_tcphdr, h, if_false]
  rw [if_neg (not_not.mpr hv), if_neg (not_not.mpr hi), if_pos hvip]

theorem lb_main_non_supported_proto (le : Bool) (maps : Maps) (ctx : xdp_md)
    (c : stat_counters) (config : lb_config) (src : destination_entry)
    (hs : maps.stat_counters_map = some c) (hc : maps.lb_config_map = some config)
    (h0 : maps.destinations_map 0 = some src) (hlen : 54 ≤ ctx.frame.length)
    (hv : iphdr_version ctx.frame 14 = 4) (hi : iphdr_ihl ctx.frame 14 = 5)
    (hvip : load32 le ctx.frame 30 = config.vip_address)
    (hp : load8 ctx.frame 23 ≠ IPPROTO_TCP) :
    lb_main le maps ctx = EXIT maps XDP_PASS
      (some { c with non_supported_proto_packet_total :=
                incr64 c.non_supported_proto_packet_total }) ctx := by
  have h : ¬ (14 + 20 + 20 > ctx.frame.length) := by omega
  simp only [lb_main, hs, hc, h0, sizeof_ethhdr, sizeof_iphdr, sizeof_tcphdr, h, if_false]
  rw [if_neg (not_not.mpr hv), if_neg (not_not.mpr hi), if_neg (not_not.mpr hvip), if_pos hp]

theorem exit_ret_some (maps : Maps) (a : Nat) (c : Option stat_counters) (ctx : xdp_md)
    (hk : maps.xdpcap_hook a = false) : (EXIT maps a c ctx).ret = some a := by
  simp [EXIT, xdpcap_exit, hk]

/-- With a frame of 54 bytes or more, no path of `lb_main` touches
`too_short_packet_total`. -/
theorem lb_main_keeps_too_short (le : Bool) (maps : Maps) (ctx : xdp_md) (c : stat_counters)
    (hs : maps.stat_counters_map = some c) (hlen : 54 ≤ ctx.frame.length) :
    ∃ c', (lb_main le maps ctx).stats = some c' ∧
      c'.too_short_packet_total = c.too_short_packet_total := by
  have h : ¬ (14 + 20 + 20 > ctx.frame.length) := by omega
  unfold lb_main
  simp only [hs, sizeof_ethhdr, sizeof_iphdr, sizeof_tcphdr, h, if_false]
  repeat' split
  all_goals exact ⟨_, rfl, rfl⟩

theorem incr64_eq (c : Nat) (h : c + 1 < 2 ^ 64) : incr64 c = c + 1 := by
  unfold incr64; exact Nat.mod_eq_of_lt h

theorem full_tx (le : Bool) (maps : Maps) (ctx : xdp_md)
    (h : (lb_main le maps ctx).ret = some XDP_TX) :
    ∃ c config src dest,
      maps.stat_counters_map = some c ∧ maps.lb_config_map = some config ∧
      maps.destinations_map 0 = some src ∧
      maps.destinations_map (dest_idx le config ctx.frame) = some dest ∧
      54 ≤ ctx.frame.length ∧ 20 ≤ ctx.headroom.length ∧
      lb_main le maps ctx =
      EXIT maps XDP_TX
        (some { c with rx_packet_total := incr64 c.rx_packet_total,
                       rx_total_size := add64 c.rx_total_size ctx.frame.length })
        { headroom := ctx.headroom.take (ctx.headroom.length - 20),
          frame := (encap le src dest
              (ctx.headroom.drop (ctx.headroom.length - 20) ++ ctx.frame)).1.take
                (20 + ctx.frame.length - (46 - ntohs le (load16 le ctx.frame 16))),
          tail_adjustable := ctx.tail_adjustable } := by
  obtain ⟨c, config, src, dest, hs, hc, h0, hd, hlen, hv, hi, hvip, hp, hh, ht⟩ :=
    lb_main_tx_inv le maps ctx h
  exact ⟨c, config, src, dest, hs, hc, h0, hd, hlen, hh,
    lb_main_accept le maps ctx c config src dest hs hc h0 hlen hv hi hvip hp hd hh ht⟩

theorem load8_wf (m : List Nat) (h : bytes_wf m) (j : Nat) : load8 m j < 256 :=
  load8_lt_of_wf m h j

theorem load8_expanded (hr frame : List Nat) (hl : hr.length = 20) (j k : Nat)
    (hk : k = 20 + j) : load8 (hr ++ frame) k = load8 frame j := by
  rw [load8_append_right hr frame k 20 hl (by omega)]
  congr 1
  omega

theorem be16_expanded (hr frame : List Nat) (hl : hr.length = 20) (j k : Nat)
    (hk : k = 20 + j) : be16 (hr ++ frame) k = be16 frame j := by
  unfold be16
  rw [load8_expanded hr frame hl j k hk, load8_expanded hr frame hl (j + 1) (k + 1) (by omega)]

theorem encap_load8_ge (le : Bool) (s d : destination_entry) (f0 : List Nat) (j : Nat)
    (hj : 34 ≤ j) : load8 (encap le s d f0).1 j = load8 f0 j := by
  have h1 : ∀ m : List Nat, load8 m j = load8 (m.drop 34) (j - 34) := by
    intro m
    unfold load8
    simp only [List.getD_eq_getElem?_getD, List.getElem?_drop]
    congr 2
    omega
  rw [h1, encap_drop, ← h1]

theorem ntohs_lt (le : Bool) (v : Nat) : ntohs le v < 65536 := by
  cases le <;> simp only [ntohs, bswap16, Bool.false_eq_true, if_false, if_true] <;> omega

/-- Shape of every TRANSMIT outcome: the output frame is a prefix, at least 28 bytes long,
of the encapsulated frame. -/
theorem tx_frame (le : Bool) (maps : Maps) (ctx : xdp_md)
    (h : (lb_main le maps ctx).ret = some XDP_TX) :
    ∃ src dest hr k, hr.length = 20 ∧ 54 ≤ ctx.frame.length ∧
      k = 20 + ctx.frame.length - (46 - ntohs le (load16 le ctx.frame 16)) ∧ 28 ≤ k ∧
      (lb_main le maps ctx).ctx.frame = (encap le src dest (hr ++ ctx.frame)).1.take k ∧
      (lb_main le maps ctx).ctx.frame.length = k := by
  obtain ⟨c, config, src, dest, hs, hc, h0, hd, hlen, hh, heq⟩ := full_tx le maps ctx h
  have hr := length_drop_headroom ctx.headroom 20 hh
  refine ⟨src, dest, ctx.headroom.drop (ctx.headroom.length - 20), _, hr, hlen, rfl,
    by omega, ?_, ?_⟩
  · rw [heq]; rfl
  · rw [heq]
    simp only [EXIT, List.length_take, encap_length, List.length_append, hr]
    omega

theorem incr64_iter (c n : Nat) : incr64 ((c + n) % 2 ^ 64) = (c + (n + 1)) % 2 ^ 64 := by
  unfold incr64
  omega

theorem lb_main_iter_of_step (le : Bool) (maps : Maps) (ctx : xdp_md) (c : stat_counters)
    (upd : Nat → stat_counters) (hs : maps.stat_counters_map = some c) (hz : upd 0 = c)
    (hstep : ∀ n, (lb_main le { maps with stat_counters_map := some (upd n) } ctx).stats
      = some (upd (n + 1))) :
    ∀ n, lb_main_iter le maps ctx n = some (upd n) := by
  intro n
  induction n with
  | zero => rw [lb_main_iter, hs, hz]
  | succ k ih => rw [lb_main_iter, ih, hstep]

/-- The accepted path up to the destination lookup (lines 146-158) as an equation: what
`lb_main` does once the entry at `dest_idx` was found and the head expansion failed. -/
theorem lb_main_head_fail (le : Bool) (maps : Maps) (ctx : xdp_md) (c : stat_counters)
    (config : lb_config) (src dest : destination_entry)
    (hs : maps.stat_counters_map = some c) (hc : maps.lb_config_map = some config)
    (h0 : maps.destinations_map 0 = some src) (hlen : 54 ≤ ctx.frame.length)
    (hv : iphdr_version ctx.frame 14 = 4) (hi : iphdr_ihl ctx.frame 14 = 5)
    (hvip : load32 le ctx.frame 30 = config.vip_address)
    (hp : load8 ctx.frame 23 = IPPROTO_TCP)
    (hd : maps.destinations_map (dest_idx le config ctx.frame) = some dest)
    (hh : bpf_xdp_adjust_head_neg ctx sizeof_iphdr = none) :
    lb_main le maps ctx = EXIT maps XDP_DROP
      (some { c with rx_packet_total := incr64 c.rx_packet_total,
                     rx_total_size := add64 c.rx_total_size ctx.frame.length,
                     failed_adjust_head_total := incr64 c.failed_adjust_head_total }) ctx := by
  have h : ¬ (14 + 20 + 20 > ctx.frame.length) := by omega
  simp only [sizeof_iphdr] at hh
  simp only [lb_main, hs, hc, h0, sizeof_ethhdr, sizeof_iphdr, sizeof_tcphdr, h, if_false]
  rw [if_neg (not_not.mpr hv), if_neg (not_not.mpr hi), if_neg (not_not.mpr hvip),
    if_neg (not_not.mpr hp)]
  simp only [hd, hh]

/-- Every exit of `lb_main` hands one of the three actions to `xdpcap_exit`. -/
theorem lb_main_ret_exit (le : Bool) (maps : Maps) (ctx : xdp_md) :
    ∃ a, (a = XDP_PASS ∨ a = XDP_DROP ∨ a = XDP_TX) ∧
      (lb_main le maps ctx).ret = xdpcap_exit maps.xdpcap_hook a := by
  simp only [lb_main]
  repeat' split
  all_goals first
    | exact ⟨XDP_PASS, Or.inl rfl, rfl⟩
    | exact ⟨XDP_DROP, Or.inr (Or.inl rfl), rfl⟩
    | exact ⟨XDP_TX, Or.inr (Or.inr rfl), rfl⟩

/-- On the accepted path the two receive counters are updated, whatever happens next. -/
theorem lb_main_rx_accepted (le : Bool) (maps : Maps) (ctx : xdp_md) (c : stat_counters)
    (config : lb_config) (src : destination_entry)
    (hs : maps.stat_counters_map = some c) (hc : maps.lb_config_map = some config)
    (h0 : maps.destinations_map 0 = some src) (hlen : 54 ≤ ctx.frame.length)
    (hv : iphdr_version ctx.frame 14 = 4) (hi : iphdr_ihl ctx.frame 14 = 5)
    (hvip : load32 le ctx.frame 30 = config.vip_address)
    (hp : load8 ctx.frame 23 = IPPROTO_TCP) :
    ∃ c', (lb_main le maps ctx).stats = some c' ∧
      c'.rx_packet_total = incr64 c.rx_packet_total ∧
      c'.rx_total_size = add64 c.rx_total_size ctx.frame.length ∧
      ((lb_main le maps ctx).ret = xdpcap_exit maps.xdpcap_hook XDP_TX ∨
        (lb_main le maps ctx).ret = xdpcap_exit maps.xdpcap_hook XDP_DROP) := by
  have h : ¬ (14 + 20 + 20 > ctx.frame.length) := by omega
  simp only [lb_main, hs, hc, h0, sizeof_ethhdr, sizeof_iphdr, sizeof_tcphdr, h, if_false]
  rw [if_neg (not_not.mpr hv), if_neg (not_not.mpr hi), if_neg (not_not.mpr hvip),
    if_neg (not_not.mpr hp)]
  repeat' split
  all_goals first
    | exact ⟨_, rfl, rfl, rfl, Or.inl rfl⟩
    | exact ⟨_, rfl, rfl, rfl, Or.inr rfl⟩

/-- One run of `lb_main` moves every counter up by at most one event (the byte counter by
at most the frame length) and, short of wrap-around, never down. -/
theorem lb_main_step_mono (le : Bool) (maps : Maps) (ctx : xdp_md) (c : stat_counters)
    (n b : Nat) (hs : maps.stat_counters_map = some c)
    (hw : no_wrap c (n + 1) (ctx.frame.length + b)) :
    ∃ c', (lb_main le maps ctx).stats = some c' ∧ stat_le c c' ∧ no_wrap c' n b := by
  obtain ⟨w1, w2, w3, w4, w5, w6, w7, w8, w9⟩ := hw
  simp only [lb_main, hs]
  repeat' split
  all_goals
    refine ⟨_, rfl, ?_, ?_⟩
    · simp only [stat_le, incr64, add64]
      omega
    · simp only [no_wrap, incr64, add64]
      omega

theorem stat_le_refl (c : stat_counters) : stat_le c c := by
  simp only [stat_le]; omega

theorem stat_le_trans (a b c : stat_counters) (h1 : stat_le a b) (h2 : stat_le b c) :
    stat_le a c := by
  simp only [stat_le] at *; omega

theorem lb_main_seq_mono (le : Bool) (pkts : List xdp_md) :
    ∀ (maps : Maps) (c : stat_counters) (n b : Nat), maps.stat_counters_map = some c →
      no_wrap c (pkts.length + n) (total_size pkts + b) →
      ∃ c', lb_main_seq le maps pkts = some c' ∧ stat_le c c' ∧ no_wrap c' n b := by
  induction pkts with
  | nil =>
    intro maps c n b hs hw
    refine ⟨c, hs, stat_le_refl c, ?_⟩
    simpa [total_size] using hw
  | cons ctx rest ih =>
    intro maps c n b hs hw
    have hw' : no_wrap c ((rest.length + n) + 1) (ctx.frame.length + (total_size rest + b)) := by
      simp only [no_wrap, List.length_cons, total_size] at hw ⊢
      omega
    obtain ⟨c1, h1, hle1, hw1⟩ := lb_main_step_mono le maps ctx c _ _ hs hw'
    obtain ⟨c2, h2, hle2, hw2⟩ :=
      ih { maps with stat_counters_map := (lb_main le maps ctx).stats } c1 n b h1 hw1
    exact ⟨c2, h2, stat_le_trans _ _ _ hle1 hle2, hw2⟩

theorem lb_main_seq_append (le : Bool) (pre post : List xdp_md) :
    ∀ maps : Maps, lb_main_seq le maps (pre ++ post)
      = lb_main_seq le { maps with stat_counters_map := lb_main_seq le maps pre } post := by
  induction pre with
  | nil => intro maps; rfl
  | cons ctx rest ih =>
    intro maps
    exact ih { maps with stat_counters_map := (lb_main le maps ctx).stats }

theorem total_size_append (pre post : List xdp_md) :
    total_size (pre ++ post) = total_size pre + total_size post := by
  induction pre with
  | nil => simp [total_size]
  | cons ctx rest ih =>
    show ctx.frame.length + total_size (rest ++ post)
      = ctx.frame.length + total_size rest + total_size post
    rw [ih]
    omega

/-- The exit of line 161: no entry at the selected index. -/
theorem lb_main_no_dest (le : Bool) (maps : Maps) (ctx : xdp_md) (c : stat_counters)
    (config : lb_config) (src : destination_entry)
    (hs : maps.stat_counters_map = some c) (hc : maps.lb_config_map = some config)
    (h0 : maps.destinations_map 0 = some src) (hlen : 54 ≤ ctx.frame.length)
    (hv : iphdr_version ctx.frame 14 = 4) (hi : iphdr_ihl ctx.frame 14 = 5)
    (hvip : load32 le ctx.frame 30 = config.vip_address)
    (hp : load8 ctx.frame 23 = IPPROTO_TCP)
    (hd : maps.destinations_map (dest_idx le config ctx.frame) = none) :
    lb_main le maps ctx = EXIT maps XDP_DROP
      (some { c with rx_packet_total := incr64 c.rx_packet_total,
                     rx_total_size := add64 c.rx_total_size ctx.frame.length }) ctx := by
  have h : ¬ (14 + 20 + 20 > ctx.frame.length) := by omega
  simp only [lb_main, hs, hc, h0, sizeof_ethhdr, sizeof_iphdr, sizeof_tcphdr, h, if_false]
  rw [if_neg (not_not.mpr hv), if_neg (not_not.mpr hi), if_neg (not_not.mpr hvip),
    if_neg (not_not.mpr hp)]
  simp only [hd]

/-- The exit of line 221: the tail shrink was needed and failed. -/
theorem lb_main_tail_fail (le : Bool) (maps : Maps) (ctx : xdp_md) (c : stat_counters)
    (config : lb_config) (src dest : destination_entry)
    (hs : maps.stat_counters_map = some c) (hc : maps.lb_config_map = some config)
    (h0 : maps.destinations_map 0 = some src)
    (hlen : 54 ≤ ctx.frame.length) (hv : iphdr_version ctx.frame 14 = 4)
    (hi : iphdr_ihl ctx.frame 14 = 5) (hvip : load32 le ctx.frame 30 = config.vip_address)
    (hp : load8 ctx.frame 23 = IPPROTO_TCP)
    (hd : maps.destinations_map (dest_idx le config ctx.frame) = some dest)
    (hh : 20 ≤ ctx.headroom.length)
    (hpad : 14 + ntohs le (load16 le ctx.frame 16) < 60)
    (hta : ctx.tail_adjustable = false) :
    lb_main le maps ctx =
      EXIT maps XDP_DROP
        (some { c with rx_packet_total := incr64 c.rx_packet_total,
                       rx_total_size := add64 c.rx_total_size ctx.frame.length,
                       failed_adjust_tail_total := incr64 c.failed_adjust_tail_total })
        { headroom := ctx.headroom.take (ctx.headroom.length - 20),
          frame := (encap le src dest
              (ctx.headroom.drop (ctx.headroom.length - 20) ++ ctx.frame)).1,
          tail_adjustable := ctx.tail_adjustable } := by
  have hlen' : ¬ (14 + 20 + 20 > ctx.frame.length) := by omega
  have hr := length_drop_headroom ctx.headroom 20 hh
  have hT : (encap le src dest (ctx.headroom.drop (ctx.headroom.length - 20) ++ ctx.frame)).2
      = ntohs le (load16 le ctx.frame 16) := by
    rw [encap_snd]
    congr 1
    cases le <;> simp [load16, load8_append_right _ _ _ 20 hr]
  have hah : bpf_xdp_adjust_head_neg ctx 20 = some
      { headroom := ctx.headroom.take (ctx.headroom.length - 20),
        frame := ctx.headroom.drop (ctx.headroom.length - 20) ++ ctx.frame,
        tail_adjustable := ctx.tail_adjustable } := by
    simp [bpf_xdp_adjust_head_neg, hh]
  have h74 : ¬ (14 + 20 + 20 >
      (ctx.headroom.drop (ctx.headroom.length - 20) ++ ctx.frame).length) := by
    rw [List.length_append, hr]; omega
  have hpad' : ((60 : Nat) : Int)
      - (((14 : Nat) : Int) + (ntohs le (load16 le ctx.frame 16) : Int)) > 0 := by
    omega
  simp only [lb_main, hs, hc, h0, hd, sizeof_ethhdr, sizeof_iphdr, sizeof_tcphdr, hv, hi, hvip, hp,
    hah, hlen', h74, ne_eq, not_true_eq_false, if_false, hT, ETH_ZLEN, hpad', if_true,
    bpf_xdp_adjust_tail_neg, hta, Bool.false_and, Bool.false_eq_true]

theorem sum_words_congr (le : Bool) (m m' : List Nat) (base n : Nat)
    (h : ∀ j, base ≤ j → j < base + 2 * n → load8 m j = load8 m' j) :
    sum_words le m base n = sum_words le m' base n := by
  induction n with
  | zero => rfl
  | succ k ih =>
    rw [sum_words, sum_words, ih (fun j h1 h2 => h j h1 (by omega)),
      load16_congr le m m' (base + 2 * k) (h _ (by omega) (by omega))
        (h _ (by omega) (by omega))]

theorem sum_words_lt (le : Bool) (m : List Nat) (base n : Nat) :
    sum_words le m base n < 2 ^ 32 := by
  cases n with
  | zero => simp [sum_words]
  | succ k => rw [sum_words]; exact Nat.mod_lt _ (by decide)

theorem load16_store16 (le : Bool) (m : List Nat) (off v : Nat) (h : off + 1 < m.length) :
    load16 le (store16 le m off v) off = v % 65536 := by
  unfold load16
  rw [load8_store16_fst _ _ _ _ h, load8_store16_snd _ _ _ _ h]
  cases le
  · simp only [Bool.false_eq_true, if_false]; omega
  · simp only [if_true]; omega

/-- The last four stores of `encap` (lines 204-206 and 214) on any frame `m`: the
checksum field holds the complement of the once-folded sum `s` of the ten words taken with
a zero checksum, and zeroing the field again gives back that sum. -/
theorem csum_core (le : Bool) (m : List Nat) (a b v : Nat) (hm : 34 ≤ m.length) :
    sum_words le (store16 le (store16 le
        (store32 le (store32 le (store16 le m 24 0) 26 a) 30 b) 24 v) 24 0) 14 10
      = sum_words le (store32 le (store32 le (store16 le m 24 0) 26 a) 30 b) 14 10 := by
  apply sum_words_congr
  intro j h1 h2
  by_cases hj : j = 24 ∨ j = 25
  · have h24 : 24 + 1 < (store16 le (store32 le (store32 le (store16 le m 24 0) 26 a) 30 b)
        24 v).length := by
      simp only [length_store16, length_store32]; omega
    have hm24 : 24 + 1 < m.length := by omega
    rcases hj with hj | hj
    · subst hj
      rw [load8_store16_fst _ _ _ _ h24, load8_store32_ne _ _ _ _ _ (by omega),
        load8_store32_ne _ _ _ _ _ (by omega), load8_store16_fst _ _ _ _ hm24]
    · subst hj
      rw [load8_store16_snd _ _ _ _ h24, load8_store32_ne _ _ _ _ _ (by omega),
        load8_store32_ne _ _ _ _ _ (by omega), load8_store16_snd _ _ _ _ hm24]
  · rw [load8_store16_ne _ _ _ _ _ (by omega) (by omega),
      load8_store16_ne _ _ _ _ _ (by omega) (by omega)]

/-- The checksum that `encap` stores, in terms of the header it has built. -/
theorem encap_check (le : Bool) (s d : destination_entry) (f0 : List Nat)
    (h : 34 ≤ f0.length) :
    load16 le (encap le s d f0).1 24
      = (2 ^ 32 - 1
          - (sum_words le (store16 le (encap le s d f0).1 24 0) 14 10 % 65536
            + sum_words le (store16 le (encap le s d f0).1 24 0) 14 10 / 65536)) % 65536 := by
  simp only [encap, sizeof_iphdr, Nat.reduceDiv]
  rw [csum_core, load16_store16]
  · have key : ∀ S : Nat, S < 2 ^ 32 →
        (2 ^ 32 - 1 - (S % 65536 + S / 65536) % 2 ^ 32) % 65536 % 65536
          = (2 ^ 32 - 1 - (S % 65536 + S / 65536)) % 65536 := by
      intro S hS
      omega
    exact key _ (sum_words_lt _ _ _ _)
  · simp only [length_store8, length_store16, length_store32, length_set_iphdr_ihl,
      length_set_iphdr_version, length_memcpy]
    omega
  · simp only [length_store8, length_store16, length_store32, length_set_iphdr_ihl,
      length_set_iphdr_version, length_memcpy]
    omega

theorem headroom_of_isSome (ctx : xdp_md)
    (h : (bpf_xdp_adjust_head_neg ctx sizeof_iphdr).isSome = true) :
    20 ≤ ctx.headroom.length := by
  by_contra hn
  simp only [bpf_xdp_adjust_head_neg, sizeof_iphdr, hn, if_false, Option.isSome_none] at h
  cases h

/-- On the transmit path `lb_main` is this `EXIT(XDP_TX)`, whatever the hook map holds. -/
theorem transmit_path_exit (le : Bool) (maps : Maps) (ctx : xdp_md) (c : stat_counters)
    (config : lb_config) (src dest : destination_entry)
    (h : transmit_path le maps ctx c config src dest) :
    lb_main le maps ctx =
      EXIT maps XDP_TX
        (some { c with rx_packet_total := incr64 c.rx_packet_total,
                       rx_total_size := add64 c.rx_total_size ctx.frame.length })
        { headroom := ctx.headroom.take (ctx.headroom.length - 20),
          frame := (encap le src dest
              (ctx.headroom.drop (ctx.headroom.length - 20) ++ ctx.frame)).1.take
                (20 + ctx.frame.length - (46 - ntohs le (load16 le ctx.frame 16))),
          tail_adjustable := ctx.tail_adjustable } := by
  obtain ⟨hs, hc, h0, hlen, hv, hi, hvip, hp, hd, hh, ht⟩ := h
  exact lb_main_accept le maps ctx c config src dest hs hc h0 hlen hv hi hvip hp hd
    (headroom_of_isSome ctx hh) ht

/-- Shape of every TRANSMIT outcome, hooked or not: the exit is `EXIT(XDP_TX)` and the
output frame is a prefix, at least 28 bytes long, of the encapsulated frame. -/
theorem transmit_path_frame (le : Bool) (maps : Maps) (ctx : xdp_md) (c : stat_counters)
    (config : lb_config) (src dest : destination_entry)
    (h : transmit_path le maps ctx c config src dest) :
    (lb_main le maps ctx).ret = xdpcap_exit maps.xdpcap_hook XDP_TX ∧
    ∃ hr k, hr.length = 20 ∧ 54 ≤ ctx.frame.length ∧
      k = 20 + ctx.frame.length - (46 - ntohs le (load16 le ctx.frame 16)) ∧ 28 ≤ k ∧
      (lb_main le maps ctx).ctx.frame = (encap le src dest (hr ++ ctx.frame)).1.take k ∧
      (lb_main le maps ctx).ctx.frame.length = k := by
  have heq := transmit_path_exit le maps ctx c config src dest h
  obtain ⟨hs, hc, h0, hlen, hv, hi, hvip, hp, hd, hh, ht⟩ := h
  have hr := length_drop_headroom ctx.headroom 20 (headroom_of_isSome ctx hh)
  refine ⟨by rw [heq]; rfl, ctx.headroom.drop (ctx.headroom.length - 20), _, hr, hlen, rfl,
    by omega, ?_, ?_⟩
  · rw [heq]; rfl
  · rw [heq]
    simp only [EXIT, List.length_take, encap_length, List.length_append, hr]
    omega

/-- Every run that returns TRANSMIT is a run on the transmit path. -/
theorem transmit_path_of_ret (le : Bool) (maps : Maps) (ctx : xdp_md)
    (h : (lb_main le maps ctx).ret = some XDP_TX) :
    ∃ c config src dest, transmit_path le maps ctx c config src dest := by
  obtain ⟨c, config, src, dest, hs, hc, h0, hd, hlen, hv, hi, hvip, hp, hh, ht⟩ :=
    lb_main_tx_inv le maps ctx h
  refine ⟨c, config, src, dest, hs, hc, h0, hlen, hv, hi, hvip, hp, hd, ?_, ht⟩
  simp [bpf_xdp_adjust_head_neg, sizeof_iphdr, hh]

/-- Off the transmit path `lb_main` leaves through `EXIT(XDP_PASS)` or `EXIT(XDP_DROP)`:
the transmit path is exactly the set of runs that end in `EXIT(XDP_TX)`. -/
theorem off_transmit_path_exit (le : Bool) (maps : Maps) (ctx : xdp_md)
    (hoff : ∀ c config src dest, ¬ transmit_path le maps ctx c config src dest) :
    (lb_main le maps ctx).ret = xdpcap_exit maps.xdpcap_hook XDP_PASS ∨
      (lb_main le maps ctx).ret = xdpcap_exit maps.xdpcap_hook XDP_DROP := by
  cases hs : maps.stat_counters_map with
  | none => left; simp only [lb_main, hs, EXIT]
  | some c =>
  cases hc : maps.lb_config_map with
  | none => left; simp only [lb_main, hs, hc, EXIT]
  | some config =>
  cases h0 : maps.destinations_map 0 with
  | none => left; simp only [lb_main, hs, hc, h0, EXIT]
  | some src =>
  by_cases hlen : ctx.frame.length < 54
  · left; rw [lb_main_too_short le maps ctx c config src hs hc h0 hlen]; rfl
  have hlen' : 54 ≤ ctx.frame.length := by omega
  by_cases hv : iphdr_version ctx.frame 14 = 4
  swap
  · left; rw [lb_main_non_ipv4 le maps ctx c config src hs hc h0 hlen' hv]; rfl
  by_cases hi : iphdr_ihl ctx.frame 14 = 5
  swap
  · left; rw [lb_main_ip_option le maps ctx c config src hs hc h0 hlen' hv hi]; rfl
  by_cases hvip : load32 le ctx.frame 30 = config.vip_address
  swap
  · left; rw [lb_main_no_vip_match le maps ctx c config src hs hc h0 hlen' hv hi hvip]; rfl
  by_cases hp : load8 ctx.frame 23 = IPPROTO_TCP
  swap
  · left
    rw [lb_main_non_supported_proto le maps ctx c config src hs hc h0 hlen' hv hi hvip hp]
    rfl
  right
  cases hd : maps.destinations_map (dest_idx le config ctx.frame) with
  | none => rw [lb_main_no_dest le maps ctx c config src hs hc h0 hlen' hv hi hvip hp hd]; rfl
  | some dest =>
  cases hah : bpf_xdp_adjust_head_neg ctx sizeof_iphdr with
  | none =>
    rw [lb_main_head_fail le maps ctx c config src dest hs hc h0 hlen' hv hi hvip hp hd hah]
    rfl
  | some ctx1 =>
  have hsome : (bpf_xdp_adjust_head_neg ctx sizeof_iphdr).isSome = true := by rw [hah]; rfl
  have hh := headroom_of_isSome ctx hsome
  have hnt : ¬ (14 + ntohs le (load16 le ctx.frame 16) < 60 → ctx.tail_adjustable = true) :=
    fun ht => hoff c config src dest ⟨hs, hc, h0, hlen', hv, hi, hvip, hp, hd, hsome, ht⟩
  have hpad : 14 + ntohs le (load16 le ctx.frame 16) < 60 := by
    by_contra hn
    exact hnt (fun hx => absurd hx hn)
  have hta : ctx.tail_adjustable = false := by
    cases hx : ctx.tail_adjustable with
    | false => rfl
    | true => exact absurd (fun _ => hx) hnt
  rw [lb_main_tail_fail le maps ctx c config src dest hs hc h0 hlen' hv hi hvip hp hd hh
    hpad hta]
  rfl

/-- Addresses written on the transmit path (lines 182-206), hooked or not: the output
frame is L + 20 - (46 - T) bytes long (T the inner total-length field, the subtraction
46 - T stopping at 0); its Ethernet destination and source MAC are those of the selected
entry and of entry 0, its EtherType is 0x0800; its outer IPv4 source address is that of
entry 0 when the output frame has at least 30 bytes, and its outer IPv4 destination address
that of the selected entry when it has at least 34 bytes, which is the case for every frame
of 60 bytes or more. With N = 2 and (S + P) mod 2 = 0 the selected entry is
destination 1. -/
theorem transmit_addresses (le : Bool) (maps : Maps) (ctx : xdp_md) (c : stat_counters)
    (config : lb_config) (src dest : destination_entry)
    (htx : transmit_path le maps ctx c config src dest)
    (hsrc : dest_wf src) (hdest : dest_wf dest) :
    (lb_main le maps ctx).ret = xdpcap_exit maps.xdpcap_hook XDP_TX
      ∧ (lb_main le maps ctx).ctx.frame.length
          = 20 + ctx.frame.length - (46 - ntohs le (load16 le ctx.frame 16))
      ∧ (∀ i, i < 6 → load8 (lb_main le maps ctx).ctx.frame i = load8 dest.mac_address i)
      ∧ (∀ i, i < 6 → load8 (lb_main le maps ctx).ctx.frame (6 + i) = load8 src.mac_address i)
      ∧ be16 (lb_main le maps ctx).ctx.frame 12 = 0x0800
      ∧ (30 ≤ (lb_main le maps ctx).ctx.frame.length →
          load32 le (lb_main le maps ctx).ctx.frame 26 = src.ip_address)
      ∧ (34 ≤ (lb_main le maps ctx).ctx.frame.length →
          load32 le (lb_main le maps ctx).ctx.frame 30 = dest.ip_address)
      ∧ (60 ≤ ctx.frame.length → 34 ≤ (lb_main le maps ctx).ctx.frame.length)
      ∧ (config.num_dests = 2 →
          (load32 le ctx.frame 26 + load16 le ctx.frame 34) % 2 = 0 →
          dest_idx le config ctx.frame = 1) := by
  obtain ⟨hret, hr, k, hrl, hlen, hk, hk28, hout, hol⟩ :=
    transmit_path_frame le maps ctx c config src dest htx
  have h34 : 34 ≤ (hr ++ ctx.frame).length := by rw [List.length_append]; omega
  refine ⟨hret, by rw [hol, hk], ?_, ?_, ?_, ?_, ?_, ?_, ?_⟩
  · intro i hi6
    rw [hout, load8_take _ _ _ (by omega), encap_h_dest le src dest _ h34 i hi6]
    exact Nat.mod_eq_of_lt (load8_wf _ hdest.2.2 i)
  · intro i hi6
    rw [hout, load8_take _ _ _ (by omega), encap_h_source le src dest _ h34 i hi6]
    exact Nat.mod_eq_of_lt (load8_wf _ hsrc.2.2 i)
  · rw [hout, be16_congr _ _ 12 (load8_take _ _ _ (by omega)) (load8_take _ _ _ (by omega))]
    exact encap_eth_proto le src dest _ h34
  · intro h30
    rw [hol] at h30
    rw [hout, load32_congr le _ _ 26 (load8_take _ _ _ (by omega))
      (load8_take _ _ _ (by omega)) (load8_take _ _ _ (by omega))
      (load8_take _ _ _ (by omega))]
    exact encap_saddr le src dest _ h34 hsrc.1
  · intro h30
    rw [hol] at h30
    rw [hout, load32_congr le _ _ 30 (load8_take _ _ _ (by omega))
      (load8_take _ _ _ (by omega)) (load8_take _ _ _ (by omega))
      (load8_take _ _ _ (by omega))]
    exact encap_daddr le src dest _ h34 hdest.1
  · intro h60
    rw [hol, hk]
    omega
  · intro hN hsum
    unfold dest_idx key
    simp only [Nat.reduceAdd, hN]
    omega

/-- The padded SYN from 10.1.2.3 with N = 2 leaves for backend 1, also with a chained
program installed in every hook slot. -/
theorem transmit_addresses_witness :
    transmit_path true (ex_maps_hooked 2) (ex_ctx ex_syn) ex_stats ⟨0x6400000A, 2⟩ ex_lb
      ex_dest1 ∧
    (lb_main true (ex_maps_hooked 2) (ex_ctx ex_syn)).ret = none ∧
    load32 true (lb_main true (ex_maps_hooked 2) (ex_ctx ex_syn)).ctx.frame 30
      = ex_dest1.ip_address :=
  have h := transmit_addresses true (ex_maps_hooked 2) (ex_ctx ex_syn) ex_stats
    ⟨0x6400000A, 2⟩ ex_lb ex_dest1 (by decide) (by decide) (by decide)
  ⟨by decide, by decide, h.2.2.2.2.2.2.1 (by decide)⟩

/-! # The claims -/

/-! ## C1 -/

/-- C1, as the code has it: for an accepted TCP packet to the virtual address and
1 ≤ N ≤ 255, the index `lb_main` looks up is (((saddr + source) mod 2^32) mod N) + 1, the
sum being a `uint32_t`; it is a function of the two fields (as read natively) and N, the
outcome of `lb_main` depends on the destination table only through entry 0 and that index,
and an empty slot at that index makes `lb_main` exit with DROP. -/
theorem C1_dest_idx_uint32 (le : Bool) (maps : Maps) (ctx : xdp_md) (c : stat_counters)
    (config : lb_config) (src : destination_entry)
    (hs : maps.stat_counters_map = some c) (hc : maps.lb_config_map = some config)
    (h0 : maps.destinations_map 0 = some src) (hlen : 54 ≤ ctx.frame.length)
    (hv : iphdr_version ctx.frame 14 = 4) (hi : iphdr_ihl ctx.frame 14 = 5)
    (hvip : load32 le ctx.frame 30 = config.vip_address)
    (hp : load8 ctx.frame 23 = IPPROTO_TCP)
    (hN1 : 1 ≤ config.num_dests) (hN2 : config.num_dests ≤ 255) :
    dest_idx le config ctx.frame
        = ((load32 le ctx.frame 26 + load16 le ctx.frame 34) % 2 ^ 32) % config.num_dests + 1
      ∧ (∀ (config' : lb_config) (frame' : List Nat),
          load32 le frame' 26 = load32 le ctx.frame 26 →
          load16 le frame' 34 = load16 le ctx.frame 34 →
          config'.num_dests = config.num_dests →
          dest_idx le config' frame' = dest_idx le config ctx.frame)
      ∧ (∀ maps' : Maps, maps'.stat_counters_map = maps.stat_counters_map →
          maps'.lb_config_map = maps.lb_config_map → maps'.xdpcap_hook = maps.xdpcap_hook →
          maps'.destinations_map 0 = maps.destinations_map 0 →
          maps'.destinations_map (dest_idx le config ctx.frame)
            = maps.destinations_map (dest_idx le config ctx.frame) →
          lb_main le maps' ctx = lb_main le maps ctx)
      ∧ (maps.destinations_map (dest_idx le config ctx.frame) = none →
          (lb_main le maps ctx).ret = xdpcap_exit maps.xdpcap_hook XDP_DROP) := by
  refine ⟨?_, ?_, ?_, ?_⟩
  · unfold dest_idx key
    have hlt : (load32 le ctx.frame (14 + 12) + load16 le ctx.frame (34 + 0)) % 2 ^ 32
        % config.num_dests < config.num_dests := Nat.mod_lt _ (by omega)
    rw [Nat.mod_eq_of_lt (by omega)]
  · intro config' frame' h1 h2 h3
    unfold dest_idx key
    simp only [Nat.reduceAdd] at *
    rw [h1, h2, h3]
  · intro maps' e1 e2 e3 e4 e5
    unfold lb_main
    simp only [EXIT, e1, e2, e3, e4, hs, hc, h0]
    rw [e5]
  · intro hd
    have h : ¬ (14 + 20 + 20 > ctx.frame.length) := by omega
    simp only [lb_main, hs, hc, h0, sizeof_ethhdr, sizeof_iphdr, sizeof_tcphdr, h, if_false]
    rw [if_neg (not_not.mpr hv), if_neg (not_not.mpr hi), if_neg (not_not.mpr hvip),
      if_neg (not_not.mpr hp)]
    simp only [hd, EXIT]

/-- Witness of C1: the SYN from 10.1.2.3 port 4661 with N = 3 on a little-endian target. -/
theorem C1_dest_idx_uint32_witness :
    dest_idx true ⟨0x6400000A, 3⟩ (ex_ctx ex_syn).frame
      = ((load32 true (ex_ctx ex_syn).frame 26 + load16 true (ex_ctx ex_syn).frame 34)
          % 2 ^ 32) % 3 + 1 ∧
    dest_idx true ⟨0x6400000A, 3⟩ (ex_ctx ex_syn).frame = 1 :=
  ⟨(C1_dest_idx_uint32 true (ex_maps 3) (ex_ctx ex_syn) ex_stats ⟨0x6400000A, 3⟩ ex_lb
      rfl rfl rfl (by decide) (by decide) (by decide) (by decide) (by decide)
      (by decide) (by decide)).1, by decide⟩

/-- Counterexample to C1 as stated: on a little-endian target a SYN from 10.1.255.255
port 63231 with N = 3 is accepted; the fields read 0xFFFF010A and 0xFFF6, so
((saddr + source) mod 3) + 1 = 3 (the same index 3 comes out when the two fields are taken
in network order, 0x0A01FFFF and 0xF6FF), but the 32-bit sum wraps to 256 and `lb_main`
looks up index 2 and transmits to backend 2. -/
theorem C1_counterexample :
    54 ≤ ex_syn_wrap.length ∧ iphdr_version ex_syn_wrap 14 = 4 ∧ iphdr_ihl ex_syn_wrap 14 = 5 ∧
    load32 true ex_syn_wrap 30 = 0x6400000A ∧ load8 ex_syn_wrap 23 = IPPROTO_TCP ∧
    load32 true ex_syn_wrap 26 = 0xFFFF010A ∧ load16 true ex_syn_wrap 34 = 0xFFF6 ∧
    (load32 true ex_syn_wrap 26 + load16 true ex_syn_wrap 34) % 3 + 1 = 3 ∧
    (be32 ex_syn_wrap 26 + be16 ex_syn_wrap 34) % 3 + 1 = 3 ∧
    dest_idx true ⟨0x6400000A, 3⟩ ex_syn_wrap = 2 ∧
    (lb_main true (ex_maps 3) (ex_ctx ex_syn_wrap)).ret = some XDP_TX ∧
    (lb_main true (ex_maps 3) (ex_ctx ex_syn_wrap)).ctx.frame.take 6 = ex_dest2.mac_address ∧
    load32 true (lb_main true (ex_maps 3) (ex_ctx ex_syn_wrap)).ctx.frame 30
      = ex_dest2.ip_address := by
  decide

/-! ## C2 -/

/-- C2 fails on the code: the 54-byte TCP frame `ex_len0` to the virtual address (version
4, IHL 5, inner total length 0, no padding) meets every condition of the claim (stores
available, N = 2, backend 1 selected and present, headroom and tail shrink available) and
`lb_main` returns TRANSMIT, but the tail shrink removes ETH_ZLEN - (14 + 0) = 46 bytes of a
frame that carries no padding and leaves 28 bytes: the outer IPv4 destination address
(offsets 30-33) is not in the output frame, and the outer source address is cut in half.
The same headers in a frame padded to 60 bytes leave as 34 bytes with both addresses in
place. -/
theorem C2_outer_header_cut :
    54 ≤ (ex_ctx ex_len0).frame.length ∧ iphdr_version (ex_ctx ex_len0).frame 14 = 4 ∧
    iphdr_ihl (ex_ctx ex_len0).frame 14 = 5 ∧
    load32 true (ex_ctx ex_len0).frame 30 = 0x6400000A ∧
    load8 (ex_ctx ex_len0).frame 23 = IPPROTO_TCP ∧
    (ex_maps 2).destinations_map (dest_idx true ⟨0x6400000A, 2⟩ (ex_ctx ex_len0).frame)
      = some ex_dest1 ∧
    20 ≤ (ex_ctx ex_len0).headroom.length ∧ (ex_ctx ex_len0).tail_adjustable = true ∧
    (lb_main true (ex_maps 2) (ex_ctx ex_len0)).ret = some XDP_TX ∧
    (lb_main true (ex_maps 2) (ex_ctx ex_len0)).ctx.frame.length = 28 ∧
    load32 true (lb_main true (ex_maps 2) (ex_ctx ex_len0)).ctx.frame 30
      ≠ ex_dest1.ip_address ∧
    load32 true (lb_main true (ex_maps 2) (ex_ctx ex_len0)).ctx.frame 26
      ≠ ex_lb.ip_address ∧
    (lb_main true (ex_maps 2) (ex_ctx ex_len0_padded)).ret = some XDP_TX ∧
    (lb_main true (ex_maps 2) (ex_ctx ex_len0_padded)).ctx.frame.length = 34 ∧
    load32 true (lb_main true (ex_maps 2) (ex_ctx ex_len0_padded)).ctx.frame 30
      = ex_dest1.ip_address ∧
    load32 true (lb_main true (ex_maps 2) (ex_ctx ex_len0_padded)).ctx.frame 26
      = ex_lb.ip_address := by
  decide

/-! ## C3 -/

/-- C3, as the code has it: for every TRANSMIT outcome (every run on the transmit path,
with or without a chained program in the hook map) the total-length field of the outer IPv4
header, read big-endian, equals (inner total length + 20) mod 2^16; it equals the inner
total length plus 20 whenever that sum fits the 16-bit field (inner total length ≤ 65515). -/
theorem C3_outer_tot_len (le : Bool) (maps : Maps) (ctx : xdp_md) (c : stat_counters)
    (config : lb_config) (src dest : destination_entry)
    (hwf : bytes_wf ctx.frame)
    (htx : transmit_path le maps ctx c config src dest) :
    (lb_main le maps ctx).ret = xdpcap_exit maps.xdpcap_hook XDP_TX
      ∧ be16 (lb_main le maps ctx).ctx.frame 16 = (be16 ctx.frame 16 + 20) % 65536
      ∧ (be16 ctx.frame 16 ≤ 65515 →
          be16 (lb_main le maps ctx).ctx.frame 16 = be16 ctx.frame 16 + 20) := by
  obtain ⟨hret, hr, k, hrl, hlen, hk, hk28, hout, -⟩ :=
    transmit_path_frame le maps ctx c config src dest htx
  have hmain : be16 (lb_main le maps ctx).ctx.frame 16 = (be16 ctx.frame 16 + 20) % 65536 := by
    rw [hout, be16_congr _ _ 16 (load8_take _ _ _ (by omega)) (load8_take _ _ _ (by omega)),
      encap_tot_len le src dest _ (by rw [List.length_append]; omega),
      ntohs_load16 le _ 36
        (by rw [load8_expanded hr _ hrl 16 36 rfl]; exact load8_wf _ hwf 16)
        (by rw [load8_expanded hr _ hrl 17 (36 + 1) rfl]; exact load8_wf _ hwf 17),
      be16_expanded hr _ hrl 16 36 rfl]
  refine ⟨hret, hmain, fun hle => ?_⟩
  rw [hmain]
  exact Nat.mod_eq_of_lt (by omega)

/-- Witness of C3: the padded SYN of total length 40 leaves with outer total length 60,
here with a chained program installed in every hook slot. -/
theorem C3_outer_tot_len_witness :
    bytes_wf (ex_ctx ex_syn).frame ∧
    transmit_path true (ex_maps_hooked 2) (ex_ctx ex_syn) ex_stats ⟨0x6400000A, 2⟩ ex_lb
      ex_dest1 ∧
    (lb_main true (ex_maps_hooked 2) (ex_ctx ex_syn)).ret = none ∧
    be16 (lb_main true (ex_maps_hooked 2) (ex_ctx ex_syn)).ctx.frame 16
      = (be16 (ex_ctx ex_syn).frame 16 + 20) % 65536 ∧
    be16 (ex_ctx ex_syn).frame 16 = 40 :=
  ⟨by decide, by decide, by decide,
    (C3_outer_tot_len true (ex_maps_hooked 2) (ex_ctx ex_syn) ex_stats ⟨0x6400000A, 2⟩
      ex_lb ex_dest1 (by decide) (by decide)).2.1, by decide⟩

/-- Counterexample to C3 as stated: a 54-byte TCP frame to the virtual address whose inner
total-length field is 65535 is transmitted with outer total length 19, not 65555. -/
theorem C3_counterexample :
    (lb_main true (ex_maps 2) (ex_ctx ex_len_max)).ret = some XDP_TX ∧
    be16 (ex_ctx ex_len_max).frame 16 = 65535 ∧
    be16 (lb_main true (ex_maps 2) (ex_ctx ex_len_max)).ctx.frame 16 = 19 ∧
    be16 (lb_main true (ex_maps 2) (ex_ctx ex_len_max)).ctx.frame 16
      ≠ be16 (ex_ctx ex_len_max).frame 16 + 20 := by
  decide

/-! ## C4 -/

/-- C4 fails on the code: on a little-endian target the padded SYN from 10.1.2.3 with
identification 0x4795, sent on from 192.168.1.1 to backend 192.168.1.2, is transmitted with
the checksum field 0xFFFF, and the outer header does not validate (the check yields
0xFEFF, not 0); with identification 0x4796 the header validates. The 32-bit sum of the
native words is 0x1FFFF, its single fold 0xFFFF + 1 = 0x10000 still carries, and the
stored checksum is the complement of the low 16 bits only. -/
theorem C4_checksum_single_fold :
    (lb_main true (ex_maps 2) (ex_ctx ex_syn_4795)).ret = some XDP_TX ∧
    (lb_main true (ex_maps 2) (ex_ctx ex_syn_4795)).ctx.frame.length = 74 ∧
    sum_words true ((lb_main true (ex_maps 2) (ex_ctx ex_syn_4795)).ctx.frame.set 24 0
      |>.set 25 0) 14 10 = 0x1FFFF ∧
    be16 (lb_main true (ex_maps 2) (ex_ctx ex_syn_4795)).ctx.frame 24 = 0xFFFF ∧
    spec_header_check (lb_main true (ex_maps 2) (ex_ctx ex_syn_4795)).ctx.frame 14 = 0xFEFF ∧
    spec_header_check (lb_main true (ex_maps 2) (ex_ctx ex_syn_4795)).ctx.frame 14 ≠ 0 ∧
    spec_header_check (lb_main true (ex_maps 2) (ex_ctx ex_syn)).ctx.frame 14 = 0 := by
  decide

/-! ## C5 -/

/-- C5: for every TRANSMIT outcome (every run on the transmit path, with or without a
chained program in the hook map) the outer IPv4 header at offset 14 has version 4, header
length 5, type of service 0, identification equal to the 16-bit complement of the inner
identification (65535 minus it), flags/fragment field 0x4000, time-to-live 64 and
protocol 4. -/
theorem C5_outer_header_fields (le : Bool) (maps : Maps) (ctx : xdp_md) (c : stat_counters)
    (config : lb_config) (src dest : destination_entry)
    (hwf : bytes_wf ctx.frame)
    (htx : transmit_path le maps ctx c config src dest) :
    (lb_main le maps ctx).ret = xdpcap_exit maps.xdpcap_hook XDP_TX
      ∧ iphdr_version (lb_main le maps ctx).ctx.frame 14 = 4
      ∧ iphdr_ihl (lb_main le maps ctx).ctx.frame 14 = 5
      ∧ load8 (lb_main le maps ctx).ctx.frame 15 = 0
      ∧ be16 (lb_main le maps ctx).ctx.frame 18 = 65535 - be16 ctx.frame 18
      ∧ be16 (lb_main le maps ctx).ctx.frame 20 = 0x4000
      ∧ load8 (lb_main le maps ctx).ctx.frame 22 = 64
      ∧ load8 (lb_main le maps ctx).ctx.frame 23 = 4 := by
  obtain ⟨hret, hr, k, hrl, hlen, hk, hk28, hout, -⟩ :=
    transmit_path_frame le maps ctx c config src dest htx
  have h34 : 34 ≤ (hr ++ ctx.frame).length := by rw [List.length_append]; omega
  have h40 : 40 ≤ (hr ++ ctx.frame).length := by rw [List.length_append]; omega
  have h14 : load8 (lb_main le maps ctx).ctx.frame 14 = 69 := by
    rw [hout, load8_take _ _ _ (by omega)]
    exact encap_vhl le src dest _ h34
  refine ⟨hret, ?_, ?_, ?_, ?_, ?_, ?_, ?_⟩
  · unfold iphdr_version; rw [h14]
  · unfold iphdr_ihl; rw [h14]
  · rw [hout, load8_take _ _ _ (by omega)]
    exact encap_tos le src dest _ h34
  · rw [hout, be16_congr _ _ 18 (load8_take _ _ _ (by omega)) (load8_take _ _ _ (by omega)),
      encap_id le src dest _ h40
        (by rw [load8_expanded hr _ hrl 18 38 rfl]; exact load8_wf _ hwf 18)
        (by rw [load8_expanded hr _ hrl 19 39 rfl]; exact load8_wf _ hwf 19),
      be16_expanded hr _ hrl 18 38 rfl]
  · rw [hout, be16_congr _ _ 20 (load8_take _ _ _ (by omega)) (load8_take _ _ _ (by omega))]
    exact encap_frag le src dest _ h34
  · rw [hout, load8_take _ _ _ (by omega)]
    exact encap_ttl le src dest _ h34
  · rw [hout, load8_take _ _ _ (by omega)]
    exact encap_protocol le src dest _ h34

/-- Witness of C5: the outer header of the padded SYN on a little-endian target, with a
chained program installed in every hook slot. -/
theorem C5_outer_header_fields_witness :
    bytes_wf (ex_ctx ex_syn).frame ∧
    transmit_path true (ex_maps_hooked 2) (ex_ctx ex_syn) ex_stats ⟨0x6400000A, 2⟩ ex_lb
      ex_dest1 ∧
    (lb_main true (ex_maps_hooked 2) (ex_ctx ex_syn)).ret = none ∧
    be16 (ex_ctx ex_syn).frame 18 = 0x4796 ∧
    be16 (lb_main true (ex_maps_hooked 2) (ex_ctx ex_syn)).ctx.frame 18
      = 65535 - be16 (ex_ctx ex_syn).frame 18 ∧
    load8 (lb_main true (ex_maps_hooked 2) (ex_ctx ex_syn)).ctx.frame 23 = 4 :=
  have h := C5_outer_header_fields true (ex_maps_hooked 2) (ex_ctx ex_syn) ex_stats
    ⟨0x6400000A, 2⟩ ex_lb ex_dest1 (by decide) (by decide)
  ⟨by decide, by decide, by decide, by decide, h.2.2.2.2.1, h.2.2.2.2.2.2.2⟩

/-! ## C6 -/

/-- C6: for every TRANSMIT outcome (every run on the transmit path, with or without a
chained program in the hook map) the inner packet is carried unmodified: for every i with
34 + i inside the output frame, the output byte at 34 + i is the input byte at 14 + i; the
output frame is never longer than the input frame plus 20 bytes. -/
theorem C6_inner_unmodified (le : Bool) (maps : Maps) (ctx : xdp_md) (c : stat_counters)
    (config : lb_config) (src dest : destination_entry)
    (htx : transmit_path le maps ctx c config src dest) :
    (lb_main le maps ctx).ret = xdpcap_exit maps.xdpcap_hook XDP_TX
      ∧ (∀ i, 34 + i < (lb_main le maps ctx).ctx.frame.length →
        load8 (lb_main le maps ctx).ctx.frame (34 + i) = load8 ctx.frame (14 + i))
      ∧ (lb_main le maps ctx).ctx.frame.length ≤ ctx.frame.length + 20 := by
  obtain ⟨hret, hr, k, hrl, hlen, hk, hk28, hout, hol⟩ :=
    transmit_path_frame le maps ctx c config src dest htx
  refine ⟨hret, fun i hi => ?_, by omega⟩
  rw [hol] at hi
  rw [hout, load8_take _ _ _ hi, encap_load8_ge le src dest _ _ (by omega),
    load8_expanded hr _ hrl (14 + i) (34 + i) (by omega)]

/-- Witness of C6: the first inner byte of the padded SYN sits at offset 34 of the output,
with a chained program installed in every hook slot. -/
theorem C6_inner_unmodified_witness :
    transmit_path true (ex_maps_hooked 2) (ex_ctx ex_syn) ex_stats ⟨0x6400000A, 2⟩ ex_lb
      ex_dest1 ∧
    34 + 0 < (lb_main true (ex_maps_hooked 2) (ex_ctx ex_syn)).ctx.frame.length ∧
    load8 (lb_main true (ex_maps_hooked 2) (ex_ctx ex_syn)).ctx.frame (34 + 0)
      = load8 (ex_ctx ex_syn).frame (14 + 0) :=
  ⟨by decide, by decide,
    (C6_inner_unmodified true (ex_maps_hooked 2) (ex_ctx ex_syn) ex_stats ⟨0x6400000A, 2⟩
      ex_lb ex_dest1 (by decide)).2.1 0 (by decide)⟩

/-! ## C7 -/

/-- C7: with the three stores available, for every frame shorter than 54 bytes `lb_main`
exits with PASS through the hand-off (and returns PASS when no chained program sits in the
PASS slot), increments `too_short_packet_total` by exactly 1 (as a `uint64_t`), changes no
other counter and leaves the frame and its length as they were, whatever the hook map
holds; with 54 bytes or more `too_short_packet_total` keeps its value. -/
theorem C7_too_short (le : Bool) (maps : Maps) (ctx : xdp_md) (c : stat_counters)
    (config : lb_config) (src : destination_entry)
    (hs : maps.stat_counters_map = some c) (hc : maps.lb_config_map = some config)
    (h0 : maps.destinations_map 0 = some src) :
    (ctx.frame.length < 54 →
        (lb_main le maps ctx).ret = xdpcap_exit maps.xdpcap_hook XDP_PASS
        ∧ (maps.xdpcap_hook XDP_PASS = false → (lb_main le maps ctx).ret = some XDP_PASS)
        ∧ (lb_main le maps ctx).stats
            = some { c with too_short_packet_total := (c.too_short_packet_total + 1) % 2 ^ 64 }
        ∧ (c.too_short_packet_total + 1 < 2 ^ 64 →
            (lb_main le maps ctx).stats
              = some { c with too_short_packet_total := c.too_short_packet_total + 1 })
        ∧ (lb_main le maps ctx).ctx = ctx)
      ∧ (54 ≤ ctx.frame.length →
        ∃ c', (lb_main le maps ctx).stats = some c' ∧
          c'.too_short_packet_total = c.too_short_packet_total) := by
  refine ⟨fun hlen => ?_, fun hlen => lb_main_keeps_too_short le maps ctx c hs hlen⟩
  rw [lb_main_too_short le maps ctx c config src hs hc h0 hlen]
  refine ⟨rfl, fun hk => exit_ret_some _ _ _ _ hk, rfl, fun hw => ?_, rfl⟩
  simp only [EXIT, incr64_eq _ hw]

/-- Witness of C7: a 20-byte frame is counted, also with a chained program installed in
every hook slot. -/
theorem C7_too_short_witness :
    (ex_ctx ex_short).frame.length < 54 ∧
    (lb_main true (ex_maps 2) (ex_ctx ex_short)).ret = some XDP_PASS ∧
    (lb_main true (ex_maps 2) (ex_ctx ex_short)).stats
      = some { ex_stats with too_short_packet_total := (0 + 1) % 2 ^ 64 } ∧
    (lb_main true (ex_maps 2) (ex_ctx ex_short)).ctx = ex_ctx ex_short ∧
    (lb_main true (ex_maps_hooked 2) (ex_ctx ex_short)).stats
      = some { ex_stats with too_short_packet_total := (0 + 1) % 2 ^ 64 } :=
  have h := (C7_too_short true (ex_maps 2) (ex_ctx ex_short) ex_stats ⟨0x6400000A, 2⟩ ex_lb
    rfl rfl rfl).1 (by decide)
  have h2 := (C7_too_short true (ex_maps_hooked 2) (ex_ctx ex_short) ex_stats
    ⟨0x6400000A, 2⟩ ex_lb rfl rfl rfl).1 (by decide)
  ⟨by decide, h.2.1 rfl, h.2.2.1, h.2.2.2.2, h2.2.2.1⟩

/-! ## C8 -/

/-- C8: with the three stores available and a frame of 54 bytes or more, the first failing
check among version ≠ 4, IHL ≠ 5, destination ≠ virtual address, protocol ≠ TCP makes
`lb_main` exit with PASS through the hand-off (and return PASS when no chained program sits
in the PASS slot) with the frame untouched and exactly its own counter incremented by 1 (as
a `uint64_t`), every other counter unchanged, whatever the hook map holds; a UDP packet to
the virtual address increments only `non_supported_proto_packet_total`. -/
theorem C8_ineligible (le : Bool) (maps : Maps) (ctx : xdp_md) (c : stat_counters)
    (config : lb_config) (src : destination_entry)
    (hs : maps.stat_counters_map = some c) (hc : maps.lb_config_map = some config)
    (h0 : maps.destinations_map 0 = some src) (hlen : 54 ≤ ctx.frame.length) :
    (iphdr_version ctx.frame 14 ≠ 4 →
        (lb_main le maps ctx).ret = xdpcap_exit maps.xdpcap_hook XDP_PASS ∧
        (maps.xdpcap_hook XDP_PASS = false → (lb_main le maps ctx).ret = some XDP_PASS) ∧
        (lb_main le maps ctx).ctx = ctx ∧
        (lb_main le maps ctx).stats
          = some { c with non_ipv4_packet_total := (c.non_ipv4_packet_total + 1) % 2 ^ 64 })
      ∧ (iphdr_version ctx.frame 14 = 4 → iphdr_ihl ctx.frame 14 ≠ 5 →
        (lb_main le maps ctx).ret = xdpcap_exit maps.xdpcap_hook XDP_PASS ∧
        (maps.xdpcap_hook XDP_PASS = false → (lb_main le maps ctx).ret = some XDP_PASS) ∧
        (lb_main le maps ctx).ctx = ctx ∧
        (lb_main le maps ctx).stats
          = some { c with ip_option_packet_total := (c.ip_option_packet_total + 1) % 2 ^ 64 })
      ∧ (iphdr_version ctx.frame 14 = 4 → iphdr_ihl ctx.frame 14 = 5 →
          load32 le ctx.frame 30 ≠ config.vip_address →
        (lb_main le maps ctx).ret = xdpcap_exit maps.xdpcap_hook XDP_PASS ∧
        (maps.xdpcap_hook XDP_PASS = false → (lb_main le maps ctx).ret = some XDP_PASS) ∧
        (lb_main le maps ctx).ctx = ctx ∧
        (lb_main le maps ctx).stats
          = some { c with no_vip_match_total := (c.no_vip_match_total + 1) % 2 ^ 64 })
      ∧ (iphdr_version ctx.frame 14 = 4 → iphdr_ihl ctx.frame 14 = 5 →
          load32 le ctx.frame 30 = config.vip_address → load8 ctx.frame 23 ≠ IPPROTO_TCP →
        (lb_main le maps ctx).ret = xdpcap_exit maps.xdpcap_hook XDP_PASS ∧
        (maps.xdpcap_hook XDP_PASS = false → (lb_main le maps ctx).ret = some XDP_PASS) ∧
        (lb_main le maps ctx).ctx = ctx ∧
        (lb_main le maps ctx).stats
          = some { c with non_supported_proto_packet_total :=
                    (c.non_supported_proto_packet_total + 1) % 2 ^ 64 })
      ∧ (iphdr_version ctx.frame 14 = 4 → iphdr_ihl ctx.frame 14 = 5 →
          load32 le ctx.frame 30 = config.vip_address → load8 ctx.frame 23 = IPPROTO_UDP →
        (lb_main le maps ctx).ret = xdpcap_exit maps.xdpcap_hook XDP_PASS ∧
        (maps.xdpcap_hook XDP_PASS = false → (lb_main le maps ctx).ret = some XDP_PASS) ∧
        (lb_main le maps ctx).ctx = ctx ∧
        (lb_main le maps ctx).stats
          = some { c with non_supported_proto_packet_total :=
                    (c.non_supported_proto_packet_total + 1) % 2 ^ 64 }) := by
  refine ⟨fun hv => ?_, fun hv hi => ?_, fun hv hi hvip => ?_, fun hv hi hvip hp => ?_,
    fun hv hi hvip hp => ?_⟩
  · rw [lb_main_non_ipv4 le maps ctx c config src hs hc h0 hlen hv]
    exact ⟨rfl, fun hk => exit_ret_some _ _ _ _ hk, rfl, rfl⟩
  · rw [lb_main_ip_option le maps ctx c config src hs hc h0 hlen hv hi]
    exact ⟨rfl, fun hk => exit_ret_some _ _ _ _ hk, rfl, rfl⟩
  · rw [lb_main_no_vip_match le maps ctx c config src hs hc h0 hlen hv hi hvip]
    exact ⟨rfl, fun hk => exit_ret_some _ _ _ _ hk, rfl, rfl⟩
  · rw [lb_main_non_supported_proto le maps ctx c config src hs hc h0 hlen hv hi hvip hp]
    exact ⟨rfl, fun hk => exit_ret_some _ _ _ _ hk, rfl, rfl⟩
  · have hp' : load8 ctx.frame 23 ≠ IPPROTO_TCP := by rw [hp]; decide
    rw [lb_main_non_supported_proto le maps ctx c config src hs hc h0 hlen hv hi hvip hp']
    exact ⟨rfl, fun hk => exit_ret_some _ _ _ _ hk, rfl, rfl⟩

/-- Witness of C8: the UDP datagram to the virtual address, without and with a chained
program installed in every hook slot. -/
theorem C8_ineligible_witness :
    54 ≤ (ex_ctx ex_udp).frame.length ∧ load8 (ex_ctx ex_udp).frame 23 = IPPROTO_UDP ∧
    (lb_main true (ex_maps 2) (ex_ctx ex_udp)).ret = some XDP_PASS ∧
    (lb_main true (ex_maps 2) (ex_ctx ex_udp)).ctx = ex_ctx ex_udp ∧
    (lb_main true (ex_maps 2) (ex_ctx ex_udp)).stats
      = some { ex_stats with non_supported_proto_packet_total := (0 + 1) % 2 ^ 64 } ∧
    (lb_main true (ex_maps_hooked 2) (ex_ctx ex_udp)).stats
      = some { ex_stats with non_supported_proto_packet_total := (0 + 1) % 2 ^ 64 } :=
  have h := (C8_ineligible true (ex_maps 2) (ex_ctx ex_udp) ex_stats ⟨0x6400000A, 2⟩ ex_lb
    rfl rfl rfl (by decide)).2.2.2.2 (by decide) (by decide) (by decide) (by decide)
  have h2 := (C8_ineligible true (ex_maps_hooked 2) (ex_ctx ex_udp) ex_stats
    ⟨0x6400000A, 2⟩ ex_lb rfl rfl rfl (by decide)).2.2.2.2 (by decide) (by decide)
    (by decide) (by decide)
  ⟨by decide, by decide, h.2.1 rfl, h.2.2.1, h.2.2.2, h2.2.2.2⟩

/-! ## C9 -/

/-- C9: for a malformed packet (too short, non-IPv4, with IP options, not addressed to the
virtual address, or non-TCP), every starting state of the 64-bit counters and every n,
running `lb_main` n times in succession on that packet leaves the statistics record equal to
the starting one except for the counter of that rejection, which has grown by n as a
`uint64_t` (modulo 2^64), hence by exactly n whenever the sum stays below 2^64. -/
theorem C9_rejection_n_times (le : Bool) (maps : Maps) (ctx : xdp_md) (c : stat_counters)
    (config : lb_config) (src : destination_entry)
    (hs : maps.stat_counters_map = some c) (hc : maps.lb_config_map = some config)
    (h0 : maps.destinations_map 0 = some src) (hwf : stats_wf c) (n : Nat) :
    (ctx.frame.length < 54 →
        lb_main_iter le maps ctx n
          = some { c with too_short_packet_total := (c.too_short_packet_total + n) % 2 ^ 64 })
      ∧ (54 ≤ ctx.frame.length → iphdr_version ctx.frame 14 ≠ 4 →
        lb_main_iter le maps ctx n
          = some { c with non_ipv4_packet_total := (c.non_ipv4_packet_total + n) % 2 ^ 64 })
      ∧ (54 ≤ ctx.frame.length → iphdr_version ctx.frame 14 = 4 →
          iphdr_ihl ctx.frame 14 ≠ 5 →
        lb_main_iter le maps ctx n
          = some { c with ip_option_packet_total := (c.ip_option_packet_total + n) % 2 ^ 64 })
      ∧ (54 ≤ ctx.frame.length → iphdr_version ctx.frame 14 = 4 →
          iphdr_ihl ctx.frame 14 = 5 → load32 le ctx.frame 30 ≠ config.vip_address →
        lb_main_iter le maps ctx n
          = some { c with no_vip_match_total := (c.no_vip_match_total + n) % 2 ^ 64 })
      ∧ (54 ≤ ctx.frame.length → iphdr_version ctx.frame 14 = 4 →
          iphdr_ihl ctx.frame 14 = 5 → load32 le ctx.frame 30 = config.vip_address →
          load8 ctx.frame 23 ≠ IPPROTO_TCP →
        lb_main_iter le maps ctx n
          = some { c with non_supported_proto_packet_total :=
                    (c.non_supported_proto_packet_total + n) % 2 ^ 64 })
      ∧ (∀ x : Nat, x + n < 2 ^ 64 → (x + n) % 2 ^ 64 = x + n) := by
  obtain ⟨-, -, w3, w4, w5, w6, w7, -, -⟩ := hwf
  refine ⟨fun hlen => ?_, fun hlen hv => ?_, fun hlen hv hi => ?_, fun hlen hv hi hvip => ?_,
    fun hlen hv hi hvip hp => ?_, fun x hx => Nat.mod_eq_of_lt hx⟩
  · refine lb_main_iter_of_step le maps ctx c
      (fun k => { c with too_short_packet_total := (c.too_short_packet_total + k) % 2 ^ 64 })
      hs ?_ (fun k => ?_) n
    · simp only [Nat.add_zero, Nat.mod_eq_of_lt w3]
    · rw [lb_main_too_short le { maps with stat_counters_map := some _ } ctx _ config src rfl hc h0
        hlen]
      simp only [EXIT, incr64_iter]
  · refine lb_main_iter_of_step le maps ctx c
      (fun k => { c with non_ipv4_packet_total := (c.non_ipv4_packet_total + k) % 2 ^ 64 })
      hs ?_ (fun k => ?_) n
    · simp only [Nat.add_zero, Nat.mod_eq_of_lt w4]
    · rw [lb_main_non_ipv4 le { maps with stat_counters_map := some _ } ctx _ config src rfl hc h0
        hlen hv]
      simp only [EXIT, incr64_iter]
  · refine lb_main_iter_of_step le maps ctx c
      (fun k => { c with ip_option_packet_total := (c.ip_option_packet_total + k) % 2 ^ 64 })
      hs ?_ (fun k => ?_) n
    · simp only [Nat.add_zero, Nat.mod_eq_of_lt w5]
    · rw [lb_main_ip_option le { maps with stat_counters_map := some _ } ctx _ config src rfl hc h0
        hlen hv hi]
      simp only [EXIT, incr64_iter]
  · refine lb_main_iter_of_step le maps ctx c
      (fun k => { c with no_vip_match_total := (c.no_vip_match_total + k) % 2 ^ 64 })
      hs ?_ (fun k => ?_) n
    · simp only [Nat.add_zero, Nat.mod_eq_of_lt w7]
    · rw [lb_main_no_vip_match le { maps with stat_counters_map := some _ } ctx _ config src rfl hc h0
        hlen hv hi hvip]
      simp only [EXIT, incr64_iter]
  · refine lb_main_iter_of_step le maps ctx c
      (fun k => { c with non_supported_proto_packet_total :=
        (c.non_supported_proto_packet_total + k) % 2 ^ 64 })
      hs ?_ (fun k => ?_) n
    · simp only [Nat.add_zero, Nat.mod_eq_of_lt w6]
    · rw [lb_main_non_supported_proto le { maps with stat_counters_map := some _ } ctx _ config src rfl hc h0
        hlen hv hi hvip hp]
      simp only [EXIT, incr64_iter]

/-- Witness of C9: the UDP datagram fed five times. -/
theorem C9_rejection_n_times_witness :
    stats_wf ex_stats ∧ 54 ≤ (ex_ctx ex_udp).frame.length ∧
    load8 (ex_ctx ex_udp).frame 23 ≠ IPPROTO_TCP ∧
    lb_main_iter true (ex_maps 2) (ex_ctx ex_udp) 5
      = some { ex_stats with non_supported_proto_packet_total := (0 + 5) % 2 ^ 64 } :=
  ⟨by decide, by decide, by decide,
    (C9_rejection_n_times true (ex_maps 2) (ex_ctx ex_udp) ex_stats ⟨0x6400000A, 2⟩ ex_lb
      rfl rfl rfl (by decide) 5).2.2.2.2.1 (by decide) (by decide) (by decide) (by decide)
      (by decide)⟩

/-! ## C10 -/

/-- C10: if the statistics record, the configuration record or destination entry 0 cannot
be located, `lb_main` exits with PASS through the hand-off for every frame (and returns
PASS when no chained program sits in the PASS slot), leaves the statistics as they were
and leaves the frame unmodified, whatever the hook map holds. -/
theorem C10_fail_open (le : Bool) (maps : Maps) (ctx : xdp_md)
    (hmiss : maps.stat_counters_map = none ∨ maps.lb_config_map = none ∨
      maps.destinations_map 0 = none) :
    (lb_main le maps ctx).ret = xdpcap_exit maps.xdpcap_hook XDP_PASS
      ∧ (maps.xdpcap_hook XDP_PASS = false → (lb_main le maps ctx).ret = some XDP_PASS)
      ∧ (lb_main le maps ctx).stats = maps.stat_counters_map
      ∧ (lb_main le maps ctx).ctx = ctx := by
  unfold lb_main
  cases hs : maps.stat_counters_map with
  | none => exact ⟨rfl, fun hk => exit_ret_some _ _ _ _ hk, rfl, rfl⟩
  | some c =>
    cases hc : maps.lb_config_map with
    | none => exact ⟨rfl, fun hk => exit_ret_some _ _ _ _ hk, rfl, rfl⟩
    | some config =>
      cases h0 : maps.destinations_map 0 with
      | none => exact ⟨rfl, fun hk => exit_ret_some _ _ _ _ hk, rfl, rfl⟩
      | some src =>
        rcases hmiss with h | h | h
        · rw [hs] at h; cases h
        · rw [hc] at h; cases h
        · rw [h0] at h; cases h

/-- Witness of C10: no configuration record. -/
theorem C10_fail_open_witness :
    (lb_main true { ex_maps 2 with lb_config_map := none } (ex_ctx ex_syn)).ret
      = some XDP_PASS ∧
    (lb_main true { ex_maps 2 with lb_config_map := none } (ex_ctx ex_syn)).stats
      = some ex_stats ∧
    (lb_main true { ex_maps 2 with lb_config_map := none } (ex_ctx ex_syn)).ctx
      = ex_ctx ex_syn ∧
    (lb_main true { ex_maps_hooked 2 with lb_config_map := none } (ex_ctx ex_syn)).stats
      = some ex_stats :=
  have h := C10_fail_open true { ex_maps 2 with lb_config_map := none } (ex_ctx ex_syn)
    (Or.inr (Or.inl rfl))
  have h2 := C10_fail_open true { ex_maps_hooked 2 with lb_config_map := none }
    (ex_ctx ex_syn) (Or.inr (Or.inl rfl))
  ⟨h.2.1 rfl, h.2.2.1, h.2.2.2, h2.2.2.1⟩

/-! ## C11 -/

/-- C11: for an accepted packet whose selected destination entry is found, if the head
expansion fails then `lb_main` exits with DROP through the hand-off (and returns DROP when
no chained program sits in the DROP slot), `failed_adjust_head_total` is incremented by
exactly 1 (as a `uint64_t`), and nothing is rewritten: the context, hence the bytes and the
length of the frame, is that of the input, whatever the hook map holds. The two receive
counters were already updated; the other six counters keep their values. -/
theorem C11_head_expansion_fails (le : Bool) (maps : Maps) (ctx : xdp_md) (c : stat_counters)
    (config : lb_config) (src dest : destination_entry)
    (hs : maps.stat_counters_map = some c) (hc : maps.lb_config_map = some config)
    (h0 : maps.destinations_map 0 = some src) (hlen : 54 ≤ ctx.frame.length)
    (hv : iphdr_version ctx.frame 14 = 4) (hi : iphdr_ihl ctx.frame 14 = 5)
    (hvip : load32 le ctx.frame 30 = config.vip_address)
    (hp : load8 ctx.frame 23 = IPPROTO_TCP)
    (hd : maps.destinations_map (dest_idx le config ctx.frame) = some dest)
    (hh : bpf_xdp_adjust_head_neg ctx sizeof_iphdr = none) :
    (lb_main le maps ctx).ret = xdpcap_exit maps.xdpcap_hook XDP_DROP
      ∧ (maps.xdpcap_hook XDP_DROP = false → (lb_main le maps ctx).ret = some XDP_DROP)
      ∧ (lb_main le maps ctx).stats
          = some { c with rx_packet_total := (c.rx_packet_total + 1) % 2 ^ 64,
                          rx_total_size := (c.rx_total_size + ctx.frame.length) % 2 ^ 64,
                          failed_adjust_head_total :=
                            (c.failed_adjust_head_total + 1) % 2 ^ 64 }
      ∧ (c.failed_adjust_head_total + 1 < 2 ^ 64 →
          ∃ c', (lb_main le maps ctx).stats = some c' ∧
            c'.failed_adjust_head_total = c.failed_adjust_head_total + 1)
      ∧ (lb_main le maps ctx).ctx = ctx
      ∧ (lb_main le maps ctx).ctx.frame = ctx.frame
      ∧ (lb_main le maps ctx).ctx.frame.length = ctx.frame.length := by
  rw [lb_main_head_fail le maps ctx c config src dest hs hc h0 hlen hv hi hvip hp hd hh]
  refine ⟨rfl, fun hk => exit_ret_some _ _ _ _ hk, rfl, fun hw => ⟨_, rfl, ?_⟩, rfl, rfl,
    rfl⟩
  exact incr64_eq _ hw

/-- Witness of C11: the padded SYN on a context without headroom. -/
theorem C11_head_expansion_fails_witness :
    54 ≤ (ex_ctx_no_headroom ex_syn).frame.length ∧
    bpf_xdp_adjust_head_neg (ex_ctx_no_headroom ex_syn) sizeof_iphdr = none ∧
    (lb_main true (ex_maps 2) (ex_ctx_no_headroom ex_syn)).ret = some XDP_DROP ∧
    (lb_main true (ex_maps 2) (ex_ctx_no_headroom ex_syn)).stats
      = some { ex_stats with rx_packet_total := (0 + 1) % 2 ^ 64,
                             rx_total_size := (0 + 60) % 2 ^ 64,
                             failed_adjust_head_total := (0 + 1) % 2 ^ 64 } ∧
    (lb_main true (ex_maps 2) (ex_ctx_no_headroom ex_syn)).ctx = ex_ctx_no_headroom ex_syn ∧
    (lb_main true (ex_maps_hooked 2) (ex_ctx_no_headroom ex_syn)).ctx
      = ex_ctx_no_headroom ex_syn :=
  have h := C11_head_expansion_fails true (ex_maps 2) (ex_ctx_no_headroom ex_syn) ex_stats
    ⟨0x6400000A, 2⟩ ex_lb ex_dest1 rfl rfl rfl (by decide) (by decide) (by decide)
    (by decide) (by decide) (by decide) (by decide)
  have h2 := C11_head_expansion_fails true (ex_maps_hooked 2) (ex_ctx_no_headroom ex_syn)
    ex_stats ⟨0x6400000A, 2⟩ ex_lb ex_dest1 rfl rfl rfl (by decide) (by decide) (by decide)
    (by decide) (by decide) (by decide) (by decide)
  ⟨by decide, by decide, h.2.1 rfl, h.2.2.1, h.2.2.2.2.1, h2.2.2.2.2.1⟩

/-! ## C12 -/

/-- C12: for every frame (hence every hash key) and every N with 1 ≤ N ≤ 255 the index
computed by `lb_main` lies in [1, N], so it is one of the slots 1..255 of the 256-slot
table and never slot 0; N = 1 selects index 1 for every key, and N = 255 with a key that
reduces to 254 selects index 255. -/
theorem C12_dest_idx_range (le : Bool) (config : lb_config) (frame : List Nat)
    (hN1 : 1 ≤ config.num_dests) (hN2 : config.num_dests ≤ 255) :
    1 ≤ dest_idx le config frame
      ∧ dest_idx le config frame ≤ config.num_dests
      ∧ dest_idx le config frame ≠ 0
      ∧ dest_idx le config frame ≤ DESTINATIONS_SIZE
      ∧ dest_idx le config frame < DESTINATIONS_SIZE + 1
      ∧ dest_idx le config frame = key le frame % config.num_dests + 1
      ∧ (config.num_dests = 1 → dest_idx le config frame = 1)
      ∧ (config.num_dests = 255 → key le frame % 255 = 254 →
          dest_idx le config frame = 255) := by
  have hlt : key le frame % config.num_dests < config.num_dests := Nat.mod_lt _ (by omega)
  have he : dest_idx le config frame = key le frame % config.num_dests + 1 := by
    unfold dest_idx
    exact Nat.mod_eq_of_lt (by omega)
  unfold DESTINATIONS_SIZE
  refine ⟨by omega, by omega, by omega, by omega, by omega, he, fun h1 => ?_, fun h1 h2 => ?_⟩
  · rw [he, h1, Nat.mod_one]
  · rw [he, h1, h2]

/-- Witness of C12: the padded SYN with N = 255. -/
theorem C12_dest_idx_range_witness :
    1 ≤ dest_idx true ⟨0x6400000A, 255⟩ ex_syn ∧
    dest_idx true ⟨0x6400000A, 255⟩ ex_syn ≤ 255 :=
  have h := C12_dest_idx_range true ⟨0x6400000A, 255⟩ ex_syn (by decide) (by decide)
  ⟨h.1, h.2.1⟩

/-! ## C13 -/

/-- C13: for every run that ends in TRANSMIT (every run on the transmit path, whatever the
hook map holds: the exit is the hand-off with TRANSMIT), with input frame length L and
inner declared total length T, the output frame length is L + 20 - (60 - (14 + T)) when
14 + T < 60 and L + 20 otherwise; for L = 60 and 14 + T ≤ 60 the output frame is exactly
14 + 20 + T bytes, which is the link header plus the total length declared by the outer
header. -/
theorem C13_tail_padding (le : Bool) (maps : Maps) (ctx : xdp_md) (c : stat_counters)
    (config : lb_config) (src dest : destination_entry)
    (hwf : bytes_wf ctx.frame)
    (htx : transmit_path le maps ctx c config src dest) :
    (lb_main le maps ctx).ret = xdpcap_exit maps.xdpcap_hook XDP_TX
      ∧ (14 + be16 ctx.frame 16 < 60 →
        (lb_main le maps ctx).ctx.frame.length
          = ctx.frame.length + 20 - (60 - (14 + be16 ctx.frame 16)))
      ∧ (¬ (14 + be16 ctx.frame 16 < 60) →
        (lb_main le maps ctx).ctx.frame.length = ctx.frame.length + 20)
      ∧ (ctx.frame.length = 60 → 14 + be16 ctx.frame 16 ≤ 60 →
        (lb_main le maps ctx).ctx.frame.length = 14 + 20 + be16 ctx.frame 16
        ∧ (lb_main le maps ctx).ctx.frame.length
            = 14 + be16 (lb_main le maps ctx).ctx.frame 16) := by
  obtain ⟨hret, hr, k, hrl, hlen, hk, hk28, hout, hol⟩ :=
    transmit_path_frame le maps ctx c config src dest htx
  refine ⟨hret, ?_⟩
  have htl : be16 (lb_main le maps ctx).ctx.frame 16 = (be16 ctx.frame 16 + 20) % 65536 := by
    rw [hout, be16_congr _ _ 16 (load8_take _ _ _ (by omega)) (load8_take _ _ _ (by omega)),
      encap_tot_len le src dest _ (by rw [List.length_append]; omega),
      ntohs_load16 le _ 36
        (by rw [load8_expanded hr _ hrl 16 36 rfl]; exact load8_wf _ hwf 16)
        (by rw [load8_expanded hr _ hrl 17 (36 + 1) rfl]; exact load8_wf _ hwf 17),
      be16_expanded hr _ hrl 16 36 rfl]
  rw [ntohs_load16 le _ 16 (load8_wf _ hwf 16) (load8_wf _ hwf 17)] at hk
  rw [htl, hol, hk]
  refine ⟨fun h1 => by omega, fun h1 => by omega, fun h1 h2 => ⟨by omega, by omega⟩⟩

/-- Witness of C13: the padded SYN (L = 60, T = 40) leaves as 74 = 14 + 20 + 40 bytes, here
with a chained program installed in every hook slot. -/
theorem C13_tail_padding_witness :
    bytes_wf (ex_ctx ex_syn).frame ∧
    transmit_path true (ex_maps_hooked 2) (ex_ctx ex_syn) ex_stats ⟨0x6400000A, 2⟩ ex_lb
      ex_dest1 ∧
    (lb_main true (ex_maps_hooked 2) (ex_ctx ex_syn)).ret = none ∧
    (ex_ctx ex_syn).frame.length = 60 ∧ be16 (ex_ctx ex_syn).frame 16 = 40 ∧
    (lb_main true (ex_maps_hooked 2) (ex_ctx ex_syn)).ctx.frame.length
      = 14 + 20 + be16 (ex_ctx ex_syn).frame 16 :=
  have h := C13_tail_padding true (ex_maps_hooked 2) (ex_ctx ex_syn) ex_stats
    ⟨0x6400000A, 2⟩ ex_lb ex_dest1 (by decide) (by decide)
  ⟨by decide, by decide, h.1, by decide, by decide,
    (h.2.2.2 (by decide) (by decide)).1⟩

/-! ## C14 -/

/-- C14: for every packet that passes the length, version, options, virtual-address and
protocol checks, `lb_main` increases `rx_packet_total` by exactly 1 and `rx_total_size` by
the length of the incoming frame (both as `uint64_t`), whether it goes on to TRANSMIT or to
DROP; for every packet that exits before that point both counters keep their values. -/
theorem C14_rx_counters (le : Bool) (maps : Maps) (ctx : xdp_md) (c : stat_counters)
    (hs : maps.stat_counters_map = some c) :
    (∀ config src, maps.lb_config_map = some config → maps.destinations_map 0 = some src →
        54 ≤ ctx.frame.length → iphdr_version ctx.frame 14 = 4 → iphdr_ihl ctx.frame 14 = 5 →
        load32 le ctx.frame 30 = config.vip_address → load8 ctx.frame 23 = IPPROTO_TCP →
        ∃ c', (lb_main le maps ctx).stats = some c' ∧
          c'.rx_packet_total = (c.rx_packet_total + 1) % 2 ^ 64 ∧
          c'.rx_total_size = (c.rx_total_size + ctx.frame.length) % 2 ^ 64 ∧
          (c.rx_packet_total + 1 < 2 ^ 64 → c'.rx_packet_total = c.rx_packet_total + 1) ∧
          (c.rx_total_size + ctx.frame.length < 2 ^ 64 →
            c'.rx_total_size = c.rx_total_size + ctx.frame.length) ∧
          ((lb_main le maps ctx).ret = xdpcap_exit maps.xdpcap_hook XDP_TX ∨
            (lb_main le maps ctx).ret = xdpcap_exit maps.xdpcap_hook XDP_DROP))
      ∧ ((maps.lb_config_map = none ∨ maps.destinations_map 0 = none ∨
            ctx.frame.length < 54 ∨ iphdr_version ctx.frame 14 ≠ 4 ∨
            iphdr_ihl ctx.frame 14 ≠ 5 ∨
            (∃ config, maps.lb_config_map = some config ∧
              load32 le ctx.frame 30 ≠ config.vip_address) ∨
            load8 ctx.frame 23 ≠ IPPROTO_TCP) →
        ∃ c', (lb_main le maps ctx).stats = some c' ∧
          c'.rx_packet_total = c.rx_packet_total ∧ c'.rx_total_size = c.rx_total_size) := by
  refine ⟨fun config src hc h0 hlen hv hi hvip hp => ?_, fun hrej => ?_⟩
  · obtain ⟨c', h1, h2, h3, h4⟩ :=
      lb_main_rx_accepted le maps ctx c config src hs hc h0 hlen hv hi hvip hp
    refine ⟨c', h1, h2, h3, fun hw => ?_, fun hw => ?_, h4⟩
    · rw [h2]; exact incr64_eq _ hw
    · rw [h3]; exact Nat.mod_eq_of_lt hw
  · cases hc : maps.lb_config_map with
    | none =>
      refine ⟨c, ?_, rfl, rfl⟩
      simp only [lb_main, hs, hc, EXIT]
    | some config =>
    cases h0 : maps.destinations_map 0 with
    | none =>
      refine ⟨c, ?_, rfl, rfl⟩
      simp only [lb_main, hs, hc, h0, EXIT]
    | some src =>
    by_cases hlen : ctx.frame.length < 54
    · rw [lb_main_too_short le maps ctx c config src hs hc h0 hlen]
      exact ⟨_, rfl, rfl, rfl⟩
    have hlen' : 54 ≤ ctx.frame.length := by omega
    by_cases hv : iphdr_version ctx.frame 14 = 4
    swap
    · rw [lb_main_non_ipv4 le maps ctx c config src hs hc h0 hlen' hv]
      exact ⟨_, rfl, rfl, rfl⟩
    by_cases hi : iphdr_ihl ctx.frame 14 = 5
    swap
    · rw [lb_main_ip_option le maps ctx c config src hs hc h0 hlen' hv hi]
      exact ⟨_, rfl, rfl, rfl⟩
    by_cases hvip : load32 le ctx.frame 30 = config.vip_address
    swap
    · rw [lb_main_no_vip_match le maps ctx c config src hs hc h0 hlen' hv hi hvip]
      exact ⟨_, rfl, rfl, rfl⟩
    by_cases hp : load8 ctx.frame 23 = IPPROTO_TCP
    swap
    · rw [lb_main_non_supported_proto le maps ctx c config src hs hc h0 hlen' hv hi hvip hp]
      exact ⟨_, rfl, rfl, rfl⟩
    exfalso
    rcases hrej with h | h | h | h | h | ⟨cfg, h1, h2⟩ | h
    · rw [hc] at h; cases h
    · rw [h0] at h; cases h
    · exact hlen h
    · exact h hv
    · exact h hi
    · rw [hc] at h1
      cases h1
      exact h2 hvip
    · exact h hp

/-- Witness of C14: the padded SYN is counted once with its 60 bytes; the UDP datagram is
not counted. -/
theorem C14_rx_counters_witness :
    (∃ c', (lb_main true (ex_maps 2) (ex_ctx ex_syn)).stats = some c' ∧
      c'.rx_packet_total = (0 + 1) % 2 ^ 64 ∧
      c'.rx_total_size = (0 + (ex_ctx ex_syn).frame.length) % 2 ^ 64) ∧
    (∃ c', (lb_main true (ex_maps 2) (ex_ctx ex_udp)).stats = some c' ∧
      c'.rx_packet_total = 0 ∧ c'.rx_total_size = 0) :=
  have h1 := (C14_rx_counters true (ex_maps 2) (ex_ctx ex_syn) ex_stats rfl).1
    ⟨0x6400000A, 2⟩ ex_lb rfl rfl (by decide) (by decide) (by decide) (by decide) (by decide)
  have h2 := (C14_rx_counters true (ex_maps 2) (ex_ctx ex_udp) ex_stats rfl).2
    (Or.inr (Or.inr (Or.inr (Or.inr (Or.inr (Or.inr (by decide)))))))
  ⟨h1.elim fun c' h => ⟨c', h.1, h.2.1, h.2.2.1⟩, h2⟩

/-! ## C15 -/

/-- C15: `xdpcap_exit` returns exactly the action it was given whenever the chained call
returns (no program installed in the slot of that action); every return of `lb_main` is
the result of `xdpcap_exit` on PASS, DROP or TRANSMIT; so every value `lb_main` returns
is one of PASS, DROP and TRANSMIT. -/
theorem C15_hand_off (le : Bool) (maps : Maps) (ctx : xdp_md) :
    (∀ (hook : Nat → Bool) (a r : Nat), xdpcap_exit hook a = some r → r = a)
      ∧ (∀ (hook : Nat → Bool) (a : Nat), hook a = false → xdpcap_exit hook a = some a)
      ∧ (∃ a, (a = XDP_PASS ∨ a = XDP_DROP ∨ a = XDP_TX) ∧
          (lb_main le maps ctx).ret = xdpcap_exit maps.xdpcap_hook a)
      ∧ (∀ r, (lb_main le maps ctx).ret = some r →
          r = XDP_PASS ∨ r = XDP_DROP ∨ r = XDP_TX)
      ∧ ((∀ a, maps.xdpcap_hook a = false) → ∃ r, (lb_main le maps ctx).ret = some r ∧
          (r = XDP_PASS ∨ r = XDP_DROP ∨ r = XDP_TX)) := by
  have hx : ∀ (hook : Nat → Bool) (a r : Nat), xdpcap_exit hook a = some r → r = a := by
    intro hook a r h
    unfold xdpcap_exit at h
    by_cases hh : hook a = true
    · rw [if_pos hh] at h; cases h
    · rw [if_neg hh] at h
      exact (Option.some.inj h).symm
  have hy : ∀ (hook : Nat → Bool) (a : Nat), hook a = false → xdpcap_exit hook a = some a := by
    intro hook a h
    simp [xdpcap_exit, h]
  obtain ⟨a, ha, hret⟩ := lb_main_ret_exit le maps ctx
  refine ⟨hx, hy, ⟨a, ha, hret⟩, fun r hr => ?_, fun hall => ⟨a, ?_, ha⟩⟩
  · rw [hret] at hr
    rw [hx _ _ _ hr]
    exact ha
  · rw [hret]
    exact hy _ _ (hall a)

/-- Witness of C15: with no chained program installed the padded SYN yields TRANSMIT. -/
theorem C15_hand_off_witness :
    (∀ a, (ex_maps 2).xdpcap_hook a = false) ∧
    (∃ r, (lb_main true (ex_maps 2) (ex_ctx ex_syn)).ret = some r ∧
      (r = XDP_PASS ∨ r = XDP_DROP ∨ r = XDP_TX)) ∧
    (lb_main true (ex_maps 2) (ex_ctx ex_syn)).ret = some XDP_TX :=
  ⟨fun _ => rfl,
    (C15_hand_off true (ex_maps 2) (ex_ctx ex_syn)).2.2.2.2 (fun _ => rfl), by decide⟩

/-! ## C16 -/

/-- C16: counter monotonicity. For every invocation of `lb_main` on every input, every
counter of the statistics record is afterwards greater than or equal to its value before,
the counters being 64-bit values that do not reach wrap-around in that invocation; and over
any sequence of invocations that stays short of wrap-around no counter ever decreases: the
record after any prefix of the sequence is at least the starting record and at most the
record after the whole sequence. -/
theorem C16_counters_monotone (le : Bool) (maps : Maps) (c : stat_counters)
    (hs : maps.stat_counters_map = some c) :
    (∀ ctx : xdp_md, no_wrap c 1 ctx.frame.length →
        ∃ c', (lb_main le maps ctx).stats = some c' ∧ stat_le c c')
      ∧ (∀ pre post : List xdp_md,
          no_wrap c (pre ++ post).length (total_size (pre ++ post)) →
          ∃ c1 c2, lb_main_seq le maps pre = some c1 ∧
            lb_main_seq le maps (pre ++ post) = some c2 ∧ stat_le c c1 ∧ stat_le c1 c2) := by
  refine ⟨fun ctx hw => ?_, fun pre post hw => ?_⟩
  · obtain ⟨c', h1, h2, -⟩ := lb_main_step_mono le maps ctx c 0 0 hs (by simpa using hw)
    exact ⟨c', h1, h2⟩
  · have hw' : no_wrap c (pre.length + post.length) (total_size pre + total_size post) := by
      rw [List.length_append, total_size_append] at hw
      exact hw
    obtain ⟨c1, h1, hle1, hw1⟩ := lb_main_seq_mono le pre maps c _ _ hs hw'
    obtain ⟨c2, h2, hle2, -⟩ := lb_main_seq_mono le post
      { maps with stat_counters_map := lb_main_seq le maps pre } c1 0 0 h1 (by simpa using hw1)
    refine ⟨c1, c2, h1, ?_, hle1, hle2⟩
    rw [lb_main_seq_append, h2]

/-- Witness of C16: a short frame, the UDP datagram and the padded SYN in a row, from
all-zero counters. -/
theorem C16_counters_monotone_witness :
    no_wrap ex_stats 1 (ex_ctx ex_syn).frame.length ∧
    (∃ c', (lb_main true (ex_maps 2) (ex_ctx ex_syn)).stats = some c' ∧
      stat_le ex_stats c') ∧
    lb_main_seq true (ex_maps 2) [ex_ctx ex_short, ex_ctx ex_udp, ex_ctx ex_syn]
      = some ⟨1, 60, 1, 0, 0, 1, 0, 0, 0⟩ :=
  ⟨by decide, (C16_counters_monotone true (ex_maps 2) ex_stats rfl).1 (ex_ctx ex_syn)
    (by decide), by decide⟩

/-! ## C17 -/

/-- C17, as the code has it: the statistics record is an ordered sequence of exactly 9
unsigned 64-bit counters: received packets, received bytes, then the seven rejection
counters (too short, non-IPv4, IP options, unsupported protocol, no virtual-address match,
head-expansion failure, tail-shrink failure). -/
theorem C17_nine_counters (c : stat_counters) :
    (stat_counters_fields c).length = 9
      ∧ (stat_counters_fields c).take 2 = [c.rx_packet_total, c.rx_total_size]
      ∧ (stat_counters_fields c).drop 2
          = [c.too_short_packet_total, c.non_ipv4_packet_total, c.ip_option_packet_total,
             c.non_supported_proto_packet_total, c.no_vip_match_total,
             c.failed_adjust_head_total, c.failed_adjust_tail_total]
      ∧ ((stat_counters_fields c).drop 2).length = 7
      ∧ (stats_wf c ↔ ∀ x ∈ stat_counters_fields c, x < 2 ^ 64)
      ∧ (∀ c' : stat_counters, stat_counters_fields c' = stat_counters_fields c → c' = c) := by
  refine ⟨rfl, rfl, rfl, rfl, ?_, ?_⟩
  · simp only [stats_wf, stat_counters_fields, List.mem_cons, List.mem_singleton,
      forall_eq_or_imp, forall_eq, List.not_mem_nil, false_implies, implies_true, and_true]
  · intro c' h
    cases c
    cases c'
    simp only [stat_counters_fields, List.cons.injEq, and_true] at h
    obtain ⟨h1, h2, h3, h4, h5, h6, h7, h8, h9⟩ := h
    subst h1 h2 h3 h4 h5 h6 h7 h8 h9
    rfl

/-- Counterexample to C17 as stated: the record does not have exactly 8 counters; the
tail-shrink failure counter is its ninth field, and a run can change it alone among the
rejection counters. -/
theorem C17_counterexample :
    (stat_counters_fields ex_stats).length ≠ 8 ∧
    (stat_counters_fields ex_stats).length = 9 ∧
    (stat_counters_fields ⟨0, 0, 0, 0, 0, 0, 0, 0, 1⟩).drop 8 = [1] ∧
    (lb_main true (ex_maps 2)
        { headroom := List.replicate 32 0xEE, frame := ex_syn, tail_adjustable := false }).stats
      = some ⟨1, 60, 0, 0, 0, 0, 0, 0, 1⟩ := by
  decide

/-! ## C18 -/

/-- C19: for every run that ends in TRANSMIT (every run on the transmit path, whatever the
hook map holds: the exit is the hand-off with TRANSMIT) the checksum field stored in the
outer IPv4 header (read natively at offset 24) equals the low 16 bits of the complement of
(s mod 2^16) + (s div 2^16), where s is the 32-bit sum of the ten native 16-bit words of
the outer header as built, taken with the checksum field set to zero: the high 16 bits are
added back exactly once. When the output frame still holds the whole outer header (at
least 34 bytes), s is that sum over the output frame itself. -/
theorem C19_checksum_formula (le : Bool) (maps : Maps) (ctx : xdp_md) (c : stat_counters)
    (config : lb_config) (src dest : destination_entry)
    (htx : transmit_path le maps ctx c config src dest) :
    (lb_main le maps ctx).ret = xdpcap_exit maps.xdpcap_hook XDP_TX ∧
    ∃ s, s < 2 ^ 32
      ∧ (∃ hr, hr.length = 20 ∧
          (lb_main le maps ctx).ctx.frame
            = (encap le src dest (hr ++ ctx.frame)).1.take
                (lb_main le maps ctx).ctx.frame.length ∧
          s = sum_words le (store16 le (encap le src dest (hr ++ ctx.frame)).1 24 0) 14 10)
      ∧ load16 le (lb_main le maps ctx).ctx.frame 24
          = (2 ^ 32 - 1 - (s % 65536 + s / 65536)) % 65536
      ∧ (34 ≤ (lb_main le maps ctx).ctx.frame.length →
          sum_words le (store16 le (lb_main le maps ctx).ctx.frame 24 0) 14 10 = s) := by
  obtain ⟨hret, hr, k, hrl, hlen, hk, hk28, hout, hol⟩ :=
    transmit_path_frame le maps ctx c config src dest htx
  have h34 : 34 ≤ (hr ++ ctx.frame).length := by rw [List.length_append]; omega
  refine ⟨hret, _, sum_words_lt le _ 14 10, ⟨hr, hrl, by rw [hol]; exact hout, rfl⟩,
    ?_, fun hk34 => ?_⟩
  · rw [hout, load16_congr le _ _ 24 (load8_take _ _ _ (by omega))
      (load8_take _ _ _ (by omega))]
    exact encap_check le src dest _ h34
  · rw [hol] at hk34
    rw [hout]
    apply sum_words_congr
    intro j h1 h2
    have hlk : ((encap le src dest (hr ++ ctx.frame)).1.take k).length = k := by
      rw [← hout]; exact hol
    have hle : 24 + 1 < (encap le src dest (hr ++ ctx.frame)).1.length := by
      rw [encap_length]; omega
    by_cases hj : j = 24 ∨ j = 25
    · rcases hj with hj | hj
      · subst hj
        rw [load8_store16_fst _ _ _ _ (by rw [hlk]; omega), load8_store16_fst _ _ _ _ hle]
      · subst hj
        rw [load8_store16_snd _ _ _ _ (by rw [hlk]; omega), load8_store16_snd _ _ _ _ hle]
    · rw [load8_store16_ne _ _ _ _ _ (by omega) (by omega),
        load8_store16_ne _ _ _ _ _ (by omega) (by omega), load8_take _ _ _ (by omega)]

/-- Witness of C19: the padded SYN with identification 0x4795 on a little-endian target,
where s = 0x1FFFF and the stored field is 0xFFFF. -/
theorem C19_checksum_formula_witness :
    transmit_path true (ex_maps 2) (ex_ctx ex_syn_4795) ex_stats ⟨0x6400000A, 2⟩ ex_lb
      ex_dest1 ∧
    (lb_main true (ex_maps 2) (ex_ctx ex_syn_4795)).ret = some XDP_TX ∧
    (∃ s, s < 2 ^ 32 ∧
      load16 true (lb_main true (ex_maps 2) (ex_ctx ex_syn_4795)).ctx.frame 24
        = (2 ^ 32 - 1 - (s % 65536 + s / 65536)) % 65536 ∧
      (34 ≤ (lb_main true (ex_maps 2) (ex_ctx ex_syn_4795)).ctx.frame.length →
        sum_words true
          (store16 true (lb_main true (ex_maps 2) (ex_ctx ex_syn_4795)).ctx.frame 24 0) 14 10
          = s)) ∧
    sum_words true
      (store16 true (lb_main true (ex_maps 2) (ex_ctx ex_syn_4795)).ctx.frame 24 0) 14 10
      = 0x1FFFF ∧
    load16 true (lb_main true (ex_maps 2) (ex_ctx ex_syn_4795)).ctx.frame 24 = 0xFFFF :=
  ⟨by decide, by decide,
    (C19_checksum_formula true (ex_maps 2) (ex_ctx ex_syn_4795) ex_stats
      ⟨0x6400000A, 2⟩ ex_lb ex_dest1 (by decide)).2.elim
      fun s hs => ⟨s, hs.1, hs.2.2.1, hs.2.2.2⟩,
    by decide, by decide⟩

/-! ## C20 -/

/-- C20 fails on the code: a valid 54-byte TCP segment to the virtual address (inner total
length 40, no padding at all, source 10.1.2.3) is transmitted as a 68-byte frame, although
its outer header declares a total length of 60, that is a 74-byte frame: the tail shrink
removes ETH_ZLEN - (14 + 40) = 6 bytes that are not padding but the end of the TCP header
validated on input (input offsets 48-53). The padded 60-byte frame with the same headers
leaves with 74 bytes, and a padded frame declaring total length 20 leaves with 54. -/
theorem C20_tail_shrink_cuts_headers :
    ex_syn_unpadded.length = 54 ∧ be16 ex_syn_unpadded 16 = 40 ∧
    (lb_main true (ex_maps 2) (ex_ctx ex_syn_unpadded)).ret = some XDP_TX ∧
    (lb_main true (ex_maps 2) (ex_ctx ex_syn_unpadded)).ctx.frame.length = 68 ∧
    ¬ (74 ≤ (lb_main true (ex_maps 2) (ex_ctx ex_syn_unpadded)).ctx.frame.length) ∧
    be16 (lb_main true (ex_maps 2) (ex_ctx ex_syn_unpadded)).ctx.frame 16 = 60 ∧
    (lb_main true (ex_maps 2) (ex_ctx ex_syn_unpadded)).ctx.frame.drop 34
      = (ex_syn_unpadded.drop 14).take 34 ∧
    (ex_syn_unpadded.drop 14).length = 40 ∧
    (lb_main true (ex_maps 2) (ex_ctx ex_syn)).ctx.frame.length = 74 ∧
    (lb_main true (ex_maps 2) (ex_ctx ex_len20)).ret = some XDP_TX ∧
    (lb_main true (ex_maps 2) (ex_ctx ex_len20)).ctx.frame.length = 54 := by
  decide

end L4lb
